import Mathlib

/-!
Verification of the hand-evaluation engine and showdown logic of a two-player
poker game. The definitions below are a shallow embedding of
`poker_game/game/card.py`, `poker_game/game/hand_scorer.py` and
`poker_game/game/game_logic.py`; the theorems at the end of the file settle
the specification claims against this embedding.
-/

/-! ## Data model: `card.py` -/

/-- The four suits (`Card.Suit` in the source); no numeric ordering. -/
inductive Suit
  | HEARTS
  | DIAMONDS
  | CLUBS
  | SPADES
deriving DecidableEq, Repr

/-- The thirteen ranks (`Card.Rank` in the source). -/
inductive Rank
  | ACE
  | TWO
  | THREE
  | FOUR
  | FIVE
  | SIX
  | SEVEN
  | EIGHT
  | NINE
  | TEN
  | JACK
  | QUEEN
  | KING
deriving DecidableEq, Repr

/-- The `Card.RANK_VALUES` table: each rank's integer point value (Ace high = 14). -/
def RANK_VALUES : Rank → Nat
  | .ACE => 14
  | .TWO => 2
  | .THREE => 3
  | .FOUR => 4
  | .FIVE => 5
  | .SIX => 6
  | .SEVEN => 7
  | .EIGHT => 8
  | .NINE => 9
  | .TEN => 10
  | .JACK => 11
  | .QUEEN => 12
  | .KING => 13

/-- A card is a (rank, suit) pair; equality and hashing are by (rank, suit)
exactly as `Card.__eq__` / `Card.__hash__` define them. -/
structure Card where
  rank : Rank
  suit : Suit
deriving DecidableEq, Repr

/-- `self.point_value = self.RANK_VALUES[rank]`, computed in `Card.__init__`. -/
def Card.point_value (c : Card) : Nat := RANK_VALUES c.rank

/-! ## Hand categories: `HandType` in `hand_scorer.py` -/

/-- The ten hand categories, listed weakest to strongest as in the source. -/
inductive HandType
  | HIGH_CARD
  | PAIR
  | TWO_PAIR
  | THREE_OF_A_KIND
  | STRAIGHT
  | FLUSH
  | FULL_HOUSE
  | FOUR_OF_A_KIND
  | STRAIGHT_FLUSH
  | ROYAL_FLUSH
deriving DecidableEq, Repr

/-- The integer value of each `HandType` member. The Python enum assigns the
values with `auto()`, which numbers the members 1..10 in declaration order. -/
def HandType.value : HandType → Nat
  | .HIGH_CARD => 1
  | .PAIR => 2
  | .TWO_PAIR => 3
  | .THREE_OF_A_KIND => 4
  | .STRAIGHT => 5
  | .FLUSH => 6
  | .FULL_HOUSE => 7
  | .FOUR_OF_A_KIND => 8
  | .STRAIGHT_FLUSH => 9
  | .ROYAL_FLUSH => 10

/-! ## Sorting helper

Python's `sorted(cards, key=lambda x: x.point_value, reverse=True)` is a stable
descending sort by point value. `insertDesc`/`sortDesc` implement exactly that:
an element is inserted after every earlier element of greater-or-equal key, so
equal-key cards keep their original relative order. -/

/-- Insert a card into a descending-sorted list, after all cards of
greater-or-equal point value (stability). -/
def insertDesc (c : Card) : List Card → List Card
  | [] => [c]
  | d :: ds =>
    if c.point_value < d.point_value then d :: insertDesc c ds else c :: d :: ds

/-- Stable descending insertion sort by point value, modelling
`sorted(..., key=lambda x: x.point_value, reverse=True)`. -/
def sortDesc : List Card → List Card
  | [] => []
  | c :: cs => insertDesc c (sortDesc cs)

/-! ## `HandScore` attribute computations -/

/-- `self.value_counts[v]`: the number of cards in the corpus whose point
value is `v` (`Counter([card.point_value for card in self.cards])`). -/
def value_count (cards : List Card) (v : Nat) : Nat :=
  (cards.filter (fun c => c.point_value == v)).length

/-- All possible point values, highest to lowest. -/
def descValues : List Nat := [14, 13, 12, 11, 10, 9, 8, 7, 6, 5, 4, 3, 2]

/-- `self.sorted_values_and_counts`: the `(value, count)` pairs of
`value_counts.items()` sorted by value, highest to lowest. Every point value
lies in `descValues`, so enumerating `descValues` and keeping the present
values produces exactly that descending list. -/
def sorted_values_and_counts (cards : List Card) : List (Nat × Nat) :=
  (descValues.filter (fun v => value_count cards v != 0)).map
    (fun v => (v, value_count cards v))

/-- The distinct suits of the corpus in order of first appearance: the
iteration order of the keys of the Python dict `self.suited_cards`, which is
built with `setdefault` while walking `self.cards`. -/
def suitsInOrderAux (seen : List Suit) : List Suit → List Suit
  | [] => []
  | s :: rest =>
    if s ∈ seen then suitsInOrderAux seen rest
    else s :: suitsInOrderAux (s :: seen) rest

/-- Iteration order of `self.suited_cards.values()` (keyed by suit). -/
def suitsInOrder (cards : List Card) : List Suit :=
  suitsInOrderAux [] (cards.map Card.suit)

/-- `self.suited_cards[s]`: the cards of suit `s` in corpus order. -/
def suited_cards (cards : List Card) (s : Suit) : List Card :=
  cards.filter (fun c => c.suit == s)

/-! ## Straight detection: `HandScore.check_straight` -/

/-- The five point values a straight with the given high card needs:
`set(range(high, high - 5, -1))`. -/
def needed_values (high : Nat) : List Nat :=
  [high, high - 1, high - 2, high - 3, high - 4]

/-- The main loop of `check_straight`: walk the descending-sorted cards at
positions `i in range(len - 4)` (so at least five cards remain from `i`);
the first position whose point value is at least 5 and whose five needed
values are all present yields the straight's high value. -/
def straightScan (vals : List Nat) : List Card → Option Nat
  | [] => none
  | c :: rest =>
    if 4 ≤ rest.length then
      if 5 ≤ c.point_value ∧ (needed_values c.point_value).all (fun v => decide (v ∈ vals)) then
        some c.point_value
      else straightScan vals rest
    else none

/-- Build the straight's card list: for each needed value, the first card of
that value in the descending-sorted list. The source gathers one card per
value and then sorts the five cards descending by value; since the five
values are distinct and per-value the first matching card of the stable
descending sort is chosen, picking along the already-descending value list
yields the identical result. -/
def pickCards (sorted_cards : List Card) (vs : List Nat) : List Card :=
  vs.filterMap (fun v => sorted_cards.find? (fun c => c.point_value == v))

/-- `HandScore.check_straight(card_subset)`: highest straight in the subset,
with the Ace-low wheel `{14,2,3,4,5}` as fallback; in the wheel the Ace is
moved to the end (`result.append(result.pop(0))`). -/
def check_straight (card_subset : List Card) : Option (List Card) :=
  let sorted_cards := sortDesc card_subset
  let all_point_values := card_subset.map Card.point_value
  match straightScan all_point_values sorted_cards with
  | some high => some (pickCards sorted_cards (needed_values high))
  | none =>
    if ([14, 2, 3, 4, 5] : List Nat).all (fun v => decide (v ∈ all_point_values)) then
      let w := pickCards sorted_cards [14, 5, 4, 3, 2]
      some (w.drop 1 ++ w.take 1)
    else none

/-! ## The remaining category detectors -/

/-- `HandScore.check_flush`: the first suit group (in dict order) with at
least five cards, its top five cards by point value descending. -/
def check_flush (cards : List Card) : Option (List Card) :=
  match (suitsInOrder cards).find? (fun s => decide (5 ≤ (suited_cards cards s).length)) with
  | some s => some ((sortDesc (suited_cards cards s)).take 5)
  | none => none

/-- `HandScore.check_straight_flush`: for each suit group with at least five
cards, the straight restricted to that group; first hit wins. -/
def check_straight_flush (cards : List Card) : Option (List Card) :=
  (suitsInOrder cards).findSome? (fun s =>
    if 5 ≤ (suited_cards cards s).length then check_straight (suited_cards cards s)
    else none)

/-- `HandScore.check_royal_flush`: a straight flush whose first card has
value 14 and whose last card has value 10. (The straight-flush list is never
empty when present; `Option.any` realises the indexing `[0]` / `[-1]`.) -/
def check_royal_flush (cards : List Card) : Option (List Card) :=
  match check_straight_flush cards with
  | some sf =>
    if sf.head?.any (fun c => c.point_value == 14) &&
       sf.getLast?.any (fun c => c.point_value == 10) then some sf
    else none
  | none => none

/-- `HandScore.check_four_of_a_kind`: first value with count exactly 4 in
descending value order; those four cards followed by the highest kicker. -/
def check_four_of_a_kind (cards : List Card) : Option (List Card) :=
  match (sorted_values_and_counts cards).find? (fun p => p.2 == 4) with
  | some p =>
    some (cards.filter (fun c => c.point_value == p.1) ++
          (sortDesc (cards.filter (fun c => c.point_value != p.1))).take 1)
  | none => none

/-- `HandScore.check_full_house`: highest value with count at least 3 as the
triple; then, excluding that value, highest value with count at least 2 as
the pair; three triple cards followed by two pair cards. -/
def check_full_house (cards : List Card) : Option (List Card) :=
  match (sorted_values_and_counts cards).find? (fun p => decide (3 ≤ p.2)) with
  | some t =>
    match (sorted_values_and_counts cards).find?
        (fun p => p.1 != t.1 && decide (2 ≤ p.2)) with
    | some q =>
      some ((cards.filter (fun c => c.point_value == t.1)).take 3 ++
            (cards.filter (fun c => c.point_value == q.1)).take 2)
    | none => none
  | none => none

/-- `HandScore.check_three_of_a_kind`: first value with count exactly 3;
those three cards followed by the two highest kickers. -/
def check_three_of_a_kind (cards : List Card) : Option (List Card) :=
  match (sorted_values_and_counts cards).find? (fun p => p.2 == 3) with
  | some p =>
    some ((cards.filter (fun c => c.point_value == p.1)).take 3 ++
          (sortDesc (cards.filter (fun c => c.point_value != p.1))).take 2)
  | none => none

/-- `HandScore.check_two_pair`: all values with count at least 2 in
descending value order, two cards each; with at least two such values, the
top two pairs followed by the highest card not in either pair. -/
def check_two_pair (cards : List Card) : Option (List Card) :=
  let pairs := ((sorted_values_and_counts cards).filter (fun p => decide (2 ≤ p.2))).map
    (fun p => (cards.filter (fun c => c.point_value == p.1)).take 2)
  match pairs with
  | p0 :: p1 :: _ =>
    let kickers := cards.filter (fun c => !(decide (c ∈ p0)) && !(decide (c ∈ p1)))
    some (p0 ++ p1 ++ (sortDesc kickers).take 1)
  | _ => none

/-- `HandScore.check_pair`: first value with count exactly 2; those two cards
followed by the three highest kickers. -/
def check_pair (cards : List Card) : Option (List Card) :=
  match (sorted_values_and_counts cards).find? (fun p => p.2 == 2) with
  | some p =>
    some ((cards.filter (fun c => c.point_value == p.1)).take 2 ++
          (sortDesc (cards.filter (fun c => c.point_value != p.1))).take 3)
  | none => none

/-! ## The evaluator cascade and score: `HandScore.score_hand` -/

/-- The detector cascade of `score_hand`, highest category first; the first
match fixes the hand type and scoring cards, with the five highest cards as
the High Card fallback. -/
def selectHand (cards : List Card) : HandType × List Card :=
  match check_royal_flush cards with
  | some l => (HandType.ROYAL_FLUSH, l)
  | none =>
    match check_straight_flush cards with
    | some l => (HandType.STRAIGHT_FLUSH, l)
    | none =>
      match check_four_of_a_kind cards with
      | some l => (HandType.FOUR_OF_A_KIND, l)
      | none =>
        match check_full_house cards with
        | some l => (HandType.FULL_HOUSE, l)
        | none =>
          match check_flush cards with
          | some l => (HandType.FLUSH, l)
          | none =>
            match check_straight cards with
            | some l => (HandType.STRAIGHT, l)
            | none =>
              match check_three_of_a_kind cards with
              | some l => (HandType.THREE_OF_A_KIND, l)
              | none =>
                match check_two_pair cards with
                | some l => (HandType.TWO_PAIR, l)
                | none =>
                  match check_pair cards with
                  | some l => (HandType.PAIR, l)
                  | none => (HandType.HIGH_CARD, (sortDesc cards).take 5)

/-- The kicker sum of `score_hand`: scoring card `j` (0-based from the most
significant) weighs `16 ^ (len - 1 - j)`, exactly the zip with
`reversed([16 ** i for i in range(len(scoring_cards))])`. -/
def weightedSum : List Card → Nat
  | [] => 0
  | c :: cs => c.point_value * 16 ^ cs.length + weightedSum cs

/-- `HandScore.score_hand`: hand type, score and scoring cards. The score is
the weighted kicker sum plus `hand_type.value * 16 ** len(scoring_cards)`. -/
def score_hand (cards : List Card) : HandType × Nat × List Card :=
  ((selectHand cards).1,
   weightedSum (selectHand cards).2 +
     (selectHand cards).1.value * 16 ^ (selectHand cards).2.length,
   (selectHand cards).2)

/-! ## Game state and showdown: `game_logic.py` -/

/-- The betting/dealing phases (`GamePhase`). -/
inductive GamePhase
  | PREFLOP
  | FLOP
  | TURN
  | RIVER
  | SHOWDOWN
  | RESULT
deriving DecidableEq, Repr

/-- The scalar fields of `PokerGame` touched by `determine_winner` and
`place_bet`. The deck and burned cards are owned by the dealing code and are
not read or written by the operations modelled here. Chips, bets and the pot
are Python ints, so they are modelled as `Int`. -/
structure GameState where
  player_hand : List Card
  computer_hand : List Card
  community_cards : List Card
  game_phase : GamePhase
  pot : Int
  player_chips : Int
  computer_chips : Int
  current_bet : Int
  player_bet : Int
  computer_bet : Int
  min_bet : Int
  winner : Option String
  winner_hand : Option HandType
deriving DecidableEq, Repr

/-- `PokerGame.determine_winner`: outside `SHOWDOWN` it returns `None` and
changes nothing. Otherwise it scores both 7-card corpora, stores
`self.winner` (`"player"` iff the player's score is strictly greater, else
`"computer"`) and `self.winner_hand`, and returns `"player"`, `"computer"`
or `"tie"` by comparing the integer scores (`HandScore.__lt__`). -/
def determine_winner (g : GameState) : GameState × Option String :=
  if g.game_phase ≠ GamePhase.SHOWDOWN then (g, none)
  else
    let player_score := score_hand (g.player_hand ++ g.community_cards)
    let computer_score := score_hand (g.computer_hand ++ g.community_cards)
    let w := if computer_score.2.1 < player_score.2.1 then "player" else "computer"
    let wh := if computer_score.2.1 < player_score.2.1 then player_score.1 else computer_score.1
    let g2 := { g with winner := some w, winner_hand := some wh }
    if computer_score.2.1 < player_score.2.1 then (g2, some "player")
    else if player_score.2.1 < computer_score.2.1 then (g2, some "computer")
    else (g2, some "tie")

/-- `PokerGame.place_bet`: reject negative amounts and amounts above the
betting side's chips, leaving the state untouched; otherwise move the amount
from that side's chips into its bet and the pot, and refresh `current_bet`
to the maximum of the two bets. -/
def place_bet (g : GameState) (amount : Int) (is_player : Bool) : GameState × Bool :=
  if amount < 0 then (g, false)
  else if is_player then
    if g.player_chips < amount then (g, false)
    else
      let g1 := { g with player_chips := g.player_chips - amount,
                         player_bet := g.player_bet + amount }
      ({ g1 with pot := g1.pot + amount,
                 current_bet := max g1.player_bet g1.computer_bet }, true)
  else
    if g.computer_chips < amount then (g, false)
    else
      let g1 := { g with computer_chips := g.computer_chips - amount,
                         computer_bet := g.computer_bet + amount }
      ({ g1 with pot := g1.pot + amount,
                 current_bet := max g1.player_bet g1.computer_bet }, true)

/-! ## Concrete corpora and game states used by witnesses and counterexamples -/

/-- The four suits as a list, for bounded quantification in hypotheses. -/
def allSuits : List Suit := [.HEARTS, .DIAMONDS, .CLUBS, .SPADES]

/-- A seven-card corpus whose best hand is a pair of aces. -/
def corpusPairAces : List Card :=
  [⟨.ACE, .SPADES⟩, ⟨.ACE, .HEARTS⟩, ⟨.KING, .DIAMONDS⟩, ⟨.QUEEN, .CLUBS⟩,
   ⟨.NINE, .SPADES⟩, ⟨.SEVEN, .HEARTS⟩, ⟨.THREE, .DIAMONDS⟩]

/-- A seven-card corpus whose best hand is king-high (no pair, straight or
flush). -/
def corpusHighCard : List Card :=
  [⟨.KING, .SPADES⟩, ⟨.QUEEN, .HEARTS⟩, ⟨.TEN, .DIAMONDS⟩, ⟨.EIGHT, .CLUBS⟩,
   ⟨.SIX, .SPADES⟩, ⟨.FOUR, .HEARTS⟩, ⟨.TWO, .DIAMONDS⟩]

/-- The wheel corpus of the spec: A♠2♥3♠4♣5♥ plus two unrelated low cards. -/
def corpusWheel : List Card :=
  [⟨.ACE, .SPADES⟩, ⟨.TWO, .HEARTS⟩, ⟨.THREE, .SPADES⟩, ⟨.FOUR, .CLUBS⟩,
   ⟨.FIVE, .HEARTS⟩, ⟨.SEVEN, .DIAMONDS⟩, ⟨.NINE, .CLUBS⟩]

/-- Three kings and three fours (plus a nine): the full-house tie-break
corpus of the spec. -/
def corpusKingsFours : List Card :=
  [⟨.KING, .SPADES⟩, ⟨.KING, .HEARTS⟩, ⟨.KING, .DIAMONDS⟩, ⟨.FOUR, .SPADES⟩,
   ⟨.FOUR, .HEARTS⟩, ⟨.FOUR, .DIAMONDS⟩, ⟨.NINE, .CLUBS⟩]

/-- Six spades and one heart: a flush corpus with more than five suited
cards. -/
def corpusSixSpades : List Card :=
  [⟨.TWO, .SPADES⟩, ⟨.FIVE, .SPADES⟩, ⟨.NINE, .SPADES⟩, ⟨.JACK, .SPADES⟩,
   ⟨.KING, .SPADES⟩, ⟨.ACE, .SPADES⟩, ⟨.THREE, .HEARTS⟩]

/-- A three-card input: fewer than the five cards the spec requires. -/
def threeCardInput : List Card :=
  [⟨.ACE, .SPADES⟩, ⟨.KING, .HEARTS⟩, ⟨.QUEEN, .DIAMONDS⟩]

/-- A five-card input containing the ace of spades twice. -/
def dupFiveInput : List Card :=
  [⟨.ACE, .SPADES⟩, ⟨.ACE, .SPADES⟩, ⟨.KING, .HEARTS⟩, ⟨.QUEEN, .DIAMONDS⟩,
   ⟨.JACK, .CLUBS⟩]

/-- A showdown state in which both 7-card corpora score identically (both
are ace-high with the same kickers). -/
def gShowdownTie : GameState :=
  { player_hand := [⟨.ACE, .SPADES⟩, ⟨.THREE, .DIAMONDS⟩],
    computer_hand := [⟨.ACE, .DIAMONDS⟩, ⟨.THREE, .SPADES⟩],
    community_cards := [⟨.TWO, .HEARTS⟩, ⟨.FOUR, .DIAMONDS⟩, ⟨.SIX, .SPADES⟩,
                        ⟨.EIGHT, .CLUBS⟩, ⟨.TEN, .HEARTS⟩],
    game_phase := .SHOWDOWN, pot := 100, player_chips := 900,
    computer_chips := 900, current_bet := 0, player_bet := 0,
    computer_bet := 0, min_bet := 20, winner := none, winner_hand := none }

/-- A showdown state in which the player holds a royal flush and the
computer an offsuit broadway straight: the two scoring-card rank sequences
are identical (A,K,Q,J,10) but the categories and scores differ. -/
def gRoyalVsBroadway : GameState :=
  { player_hand := [⟨.ACE, .SPADES⟩, ⟨.TEN, .SPADES⟩],
    computer_hand := [⟨.ACE, .DIAMONDS⟩, ⟨.TEN, .DIAMONDS⟩],
    community_cards := [⟨.JACK, .SPADES⟩, ⟨.QUEEN, .SPADES⟩, ⟨.KING, .SPADES⟩,
                        ⟨.TWO, .HEARTS⟩, ⟨.THREE, .DIAMONDS⟩],
    game_phase := .SHOWDOWN, pot := 100, player_chips := 900,
    computer_chips := 900, current_bet := 0, player_bet := 0,
    computer_bet := 0, min_bet := 20, winner := none, winner_hand := none }

/-! ## Basic facts about point values -/

theorem rank_value_le (r : Rank) : RANK_VALUES r ≤ 14 := by
  cases r <;> simp [RANK_VALUES]

theorem rank_value_ge (r : Rank) : 2 ≤ RANK_VALUES r := by
  cases r <;> simp [RANK_VALUES]

theorem point_value_le (c : Card) : c.point_value ≤ 14 := rank_value_le c.rank

theorem point_value_ge (c : Card) : 2 ≤ c.point_value := rank_value_ge c.rank

theorem point_value_mem_descValues (c : Card) : c.point_value ∈ descValues := by
  have h1 := point_value_le c
  have h2 := point_value_ge c
  simp only [descValues, List.mem_cons, List.mem_singleton]
  omega

theorem descValues_nodup : descValues.Nodup := by decide

theorem descValues_pairwise : descValues.Pairwise (fun a b => b < a) := by decide

theorem mem_descValues {v : Nat} : v ∈ descValues ↔ 2 ≤ v ∧ v ≤ 14 := by
  simp only [descValues, List.mem_cons, List.not_mem_nil, or_false]
  omega

/-! ## Facts about the stable descending sort -/

theorem length_insertDesc (c : Card) (l : List Card) :
    (insertDesc c l).length = l.length + 1 := by
  induction l with
  | nil => rfl
  | cons d ds ih =>
    simp only [insertDesc]
    split <;> simp [ih]

theorem mem_insertDesc {x c : Card} {l : List Card} :
    x ∈ insertDesc c l ↔ x = c ∨ x ∈ l := by
  induction l with
  | nil => simp [insertDesc]
  | cons d ds ih =>
    simp only [insertDesc]
    split
    · simp only [List.mem_cons, ih]
      tauto
    · simp only [List.mem_cons]

theorem length_sortDesc (l : List Card) : (sortDesc l).length = l.length := by
  induction l with
  | nil => rfl
  | cons c cs ih => simp [sortDesc, length_insertDesc, ih]

theorem mem_sortDesc {x : Card} {l : List Card} : x ∈ sortDesc l ↔ x ∈ l := by
  induction l with
  | nil => simp [sortDesc]
  | cons c cs ih => simp [sortDesc, mem_insertDesc, ih]

theorem pairwise_insertDesc {c : Card} {l : List Card}
    (h : l.Pairwise (fun a b => b.point_value ≤ a.point_value)) :
    (insertDesc c l).Pairwise (fun a b => b.point_value ≤ a.point_value) := by
  induction l with
  | nil => simp [insertDesc]
  | cons d ds ih =>
    rcases List.pairwise_cons.1 h with ⟨hd, hds⟩
    simp only [insertDesc]
    split
    · refine List.pairwise_cons.2 ⟨?_, ih hds⟩
      intro x hx
      rcases mem_insertDesc.1 hx with rfl | hx
      · omega
      · exact hd x hx
    · refine List.pairwise_cons.2 ⟨?_, h⟩
      intro x hx
      rcases List.mem_cons.1 hx with rfl | hx
      · omega
      · have := hd x hx
        omega

theorem sortDesc_pairwise (l : List Card) :
    (sortDesc l).Pairwise (fun a b => b.point_value ≤ a.point_value) := by
  induction l with
  | nil => simp [sortDesc]
  | cons c cs ih => exact pairwise_insertDesc ih

/-! ## Facts about filters -/

theorem length_filter_split (p : Card → Bool) (l : List Card) :
    (l.filter p).length + (l.filter (fun a => !(p a))).length = l.length := by
  induction l with
  | nil => rfl
  | cons c cs ih =>
    by_cases h : p c <;> simp [List.filter_cons, h, ← ih] <;> omega

theorem length_filter_disjoint (p q : Card → Bool) (l : List Card)
    (hpq : ∀ a, p a = true → q a = true → False) :
    (l.filter p).length + (l.filter q).length ≤ l.length := by
  induction l with
  | nil => simp
  | cons c cs ih =>
    by_cases hp : p c
    · have hq : q c = false := by
        by_contra h
        exact hpq c hp (by simpa using h)
      simp [List.filter_cons, hp, hq]
      omega
    · by_cases hq : q c <;>
        simp [List.filter_cons, hp, hq] <;> omega

/-! ## Facts about value counts and `sorted_values_and_counts` -/

theorem value_count_pos_iff {cards : List Card} {v : Nat} :
    value_count cards v ≠ 0 ↔ ∃ c ∈ cards, c.point_value = v := by
  unfold value_count
  constructor
  · intro h
    have hne : cards.filter (fun c => c.point_value == v) ≠ [] :=
      fun he => h (by rw [he]; rfl)
    rcases List.exists_mem_of_ne_nil _ hne with ⟨c, hc⟩
    rcases List.mem_filter.1 hc with ⟨hmem, hv⟩
    exact ⟨c, hmem, by simpa using hv⟩
  · rintro ⟨c, hmem, hv⟩
    intro hlen
    rw [List.length_eq_zero] at hlen
    have hcmem : c ∈ cards.filter (fun c => c.point_value == v) :=
      List.mem_filter.2 ⟨hmem, by simpa using hv⟩
    rw [hlen] at hcmem
    cases hcmem

theorem mem_svac {cards : List Card} {p : Nat × Nat}
    (h : p ∈ sorted_values_and_counts cards) :
    p.2 = value_count cards p.1 ∧ p.1 ∈ descValues ∧ value_count cards p.1 ≠ 0 := by
  unfold sorted_values_and_counts at h
  rcases List.mem_map.1 h with ⟨v, hv, rfl⟩
  rcases List.mem_filter.1 hv with ⟨hmem, hne⟩
  exact ⟨rfl, hmem, by simpa using hne⟩

theorem svac_find (cards : List Card) (q : Nat × Nat → Bool) :
    (sorted_values_and_counts cards).find? q =
      ((descValues.filter (fun v => value_count cards v != 0)).find?
        (fun v => q (v, value_count cards v))).map (fun v => (v, value_count cards v)) := by
  unfold sorted_values_and_counts
  rw [List.find?_map]
  rfl

/-- On a strictly descending list, `find?` returns an element that every
satisfying member is bounded by; so the maximal satisfying member, when one
is known, is the one found. -/
theorem find_desc {l : List Nat} (hl : l.Pairwise (fun a b => b < a)) (q : Nat → Bool)
    {v : Nat} (hmem : v ∈ l) (hq : q v = true)
    (hmax : ∀ w ∈ l, q w = true → w ≤ v) :
    l.find? q = some v := by
  induction l with
  | nil => cases hmem
  | cons a as ih =>
    rcases List.pairwise_cons.1 hl with ⟨ha, has⟩
    by_cases hqa : q a
    · rw [List.find?_cons_of_pos _ hqa]
      rcases List.mem_cons.1 hmem with rfl | hv
      · rfl
      · have h1 : a ≤ v := hmax a (List.mem_cons_self a as) hqa
        have h2 : v < a := ha v hv
        omega
    · rw [List.find?_cons_of_neg _ hqa]
      rcases List.mem_cons.1 hmem with rfl | hv
      · rw [hq] at hqa; cases hqa rfl
      · exact ih has hv (fun w hw hqw => hmax w (List.mem_cons_of_mem a hw) hqw)

/-- `find?` over `sorted_values_and_counts` returns exactly the known maximal
present value satisfying the predicate. -/
theorem svac_find_eq (cards : List Card) (q : Nat × Nat → Bool) (v : Nat)
    (hpres : value_count cards v ≠ 0)
    (hq : q (v, value_count cards v) = true)
    (hmax : ∀ w ∈ descValues, value_count cards w ≠ 0 →
      q (w, value_count cards w) = true → w ≤ v) :
    (sorted_values_and_counts cards).find? q = some (v, value_count cards v) := by
  rw [svac_find]
  have hvdesc : v ∈ descValues := by
    rcases value_count_pos_iff.1 hpres with ⟨c, _, rfl⟩
    exact point_value_mem_descValues c
  have hfind : (descValues.filter (fun w => value_count cards w != 0)).find?
      (fun w => q (w, value_count cards w)) = some v := by
    refine find_desc (descValues_pairwise.filter _) _ ?_ hq ?_
    · exact List.mem_filter.2 ⟨hvdesc, by simpa using hpres⟩
    · intro w hw hqw
      rcases List.mem_filter.1 hw with ⟨hw1, hw2⟩
      exact hmax w hw1 (by simpa using hw2) hqw
  rw [hfind]
  rfl

theorem svac_find_some {cards : List Card} {q : Nat × Nat → Bool} {p : Nat × Nat}
    (h : (sorted_values_and_counts cards).find? q = some p) :
    p.2 = value_count cards p.1 ∧ q p = true ∧ value_count cards p.1 ≠ 0 := by
  have hmem := List.mem_of_find?_eq_some h
  have hq := List.find?_some h
  rcases mem_svac hmem with ⟨h1, _, h3⟩
  exact ⟨h1, hq, h3⟩

/-! ## Facts about `pickCards` and `straightScan` -/

theorem pickCards_map_values {sorted_cards : List Card} {vs : List Nat}
    (h : ∀ v ∈ vs, ∃ c ∈ sorted_cards, c.point_value = v) :
    (pickCards sorted_cards vs).map Card.point_value = vs := by
  induction vs with
  | nil => rfl
  | cons v rest ih =>
    have hv := h v (List.mem_cons_self v rest)
    have hsome : (sorted_cards.find? (fun c => c.point_value == v)).isSome := by
      rw [List.find?_isSome]
      rcases hv with ⟨c, hc, hcv⟩
      exact ⟨c, hc, by simpa using hcv⟩
    rcases Option.isSome_iff_exists.1 hsome with ⟨c, hc⟩
    have hcv : c.point_value = v := by simpa using List.find?_some hc
    simp only [pickCards, List.filterMap_cons, hc]
    simp only [List.map_cons, hcv]
    have := ih (fun w hw => h w (List.mem_cons_of_mem v hw))
    simpa [pickCards] using this

theorem pickCards_subset {sorted_cards : List Card} {vs : List Nat} :
    ∀ c ∈ pickCards sorted_cards vs, c ∈ sorted_cards := by
  intro c hc
  rcases List.mem_filterMap.1 hc with ⟨v, _, hfind⟩
  exact List.mem_of_find?_eq_some hfind

theorem pickCards_length {sorted_cards : List Card} {vs : List Nat}
    (h : ∀ v ∈ vs, ∃ c ∈ sorted_cards, c.point_value = v) :
    (pickCards sorted_cards vs).length = vs.length := by
  have := pickCards_map_values h
  calc (pickCards sorted_cards vs).length
      = ((pickCards sorted_cards vs).map Card.point_value).length :=
        (List.length_map ..).symm
    _ = vs.length := by rw [this]

theorem straightScan_some {vals : List Nat} {l : List Card} {h : Nat}
    (hs : straightScan vals l = some h) :
    5 ≤ l.length ∧ 5 ≤ h ∧ (∃ c ∈ l, c.point_value = h) ∧
      ∀ v ∈ needed_values h, v ∈ vals := by
  induction l with
  | nil => cases hs
  | cons c rest ih =>
    unfold straightScan at hs
    by_cases hlen : 4 ≤ rest.length
    · rw [if_pos hlen] at hs
      by_cases hcond : 5 ≤ c.point_value ∧
          (needed_values c.point_value).all (fun v => decide (v ∈ vals))
      · rw [if_pos hcond] at hs
        rcases hcond with ⟨h5, hall⟩
        have hh : h = c.point_value := by
          cases hs; rfl
        subst hh
        refine ⟨by simp; omega, h5, ⟨c, List.mem_cons_self c rest, rfl⟩, ?_⟩
        intro v hv
        have := List.all_eq_true.1 hall v hv
        simpa using this
      · rw [if_neg hcond] at hs
        rcases ih hs with ⟨ha, hb, ⟨d, hd, hdv⟩, hc⟩
        exact ⟨by simp; omega, hb, ⟨d, List.mem_cons_of_mem c hd, hdv⟩, hc⟩
    · rw [if_neg hlen] at hs
      cases hs

theorem straightScan_none_of_no_straight {cards : List Card}
    (hno : ∀ v ∈ descValues, 6 ≤ v →
      ¬ (∀ w ∈ needed_values v, w ∈ cards.map Card.point_value)) :
    straightScan (cards.map Card.point_value) (sortDesc cards) = none := by
  cases hscan : straightScan (cards.map Card.point_value) (sortDesc cards) with
  | none => rfl
  | some h =>
    exfalso
    rcases straightScan_some hscan with ⟨_, h5, ⟨c, hc, hcv⟩, hall⟩
    have hdesc : h ∈ descValues := hcv ▸ point_value_mem_descValues c
    by_cases h6 : 6 ≤ h
    · exact hno h hdesc h6 hall
    · have h5eq : h = 5 := by omega
      subst h5eq
      have h1 : (1 : Nat) ∈ cards.map Card.point_value := by
        have := hall 1 (by simp [needed_values])
        exact this
      rcases List.mem_map.1 h1 with ⟨d, _, hd⟩
      have := point_value_ge d
      omega

/-! ## Inversion lemmas for the category detectors -/

theorem check_straight_some {sub l : List Card} (h : check_straight sub = some l) :
    l.length = 5 ∧ (∀ c ∈ l, c ∈ sub) ∧ 5 ≤ sub.length := by
  replace h : (match straightScan (sub.map Card.point_value) (sortDesc sub) with
      | some high => some (pickCards (sortDesc sub) (needed_values high))
      | none =>
        if ([14, 2, 3, 4, 5] : List Nat).all
            (fun v => decide (v ∈ sub.map Card.point_value)) then
          some ((pickCards (sortDesc sub) [14, 5, 4, 3, 2]).drop 1 ++
                (pickCards (sortDesc sub) [14, 5, 4, 3, 2]).take 1)
        else none) = some l := h
  cases hscan : straightScan (sub.map Card.point_value) (sortDesc sub) with
  | some high =>
    rw [hscan] at h
    simp only [Option.some.injEq] at h
    subst h
    rcases straightScan_some hscan with ⟨hlen, _, _, hall⟩
    have hpres : ∀ v ∈ needed_values high, ∃ c ∈ sortDesc sub, c.point_value = v := by
      intro v hv
      rcases List.mem_map.1 (hall v hv) with ⟨c, hc, hcv⟩
      exact ⟨c, mem_sortDesc.2 hc, hcv⟩
    refine ⟨?_, ?_, ?_⟩
    · rw [pickCards_length hpres]; rfl
    · intro c hc
      exact mem_sortDesc.1 (pickCards_subset c hc)
    · rw [length_sortDesc] at hlen; exact hlen
  | none =>
    rw [hscan] at h
    by_cases hw : ([14, 2, 3, 4, 5] : List Nat).all
        (fun v => decide (v ∈ sub.map Card.point_value))
    · rw [if_pos hw] at h
      simp only [Option.some.injEq] at h
      have hallmem : ∀ v ∈ ([14, 2, 3, 4, 5] : List Nat), v ∈ sub.map Card.point_value := by
        intro v hv
        simpa using List.all_eq_true.1 hw v hv
      have hpres : ∀ v ∈ ([14, 5, 4, 3, 2] : List Nat),
          ∃ c ∈ sortDesc sub, c.point_value = v := by
        intro v hv
        have hv2 : v ∈ ([14, 2, 3, 4, 5] : List Nat) := by
          simp only [List.mem_cons, List.not_mem_nil, or_false] at hv ⊢
          tauto
        rcases List.mem_map.1 (hallmem v hv2) with ⟨c, hc, hcv⟩
        exact ⟨c, mem_sortDesc.2 hc, hcv⟩
      have hwlen : (pickCards (sortDesc sub) [14, 5, 4, 3, 2]).length = 5 :=
        pickCards_length hpres
      subst h
      refine ⟨?_, ?_, ?_⟩
      · rw [List.length_append, List.length_drop, List.length_take, hwlen]
        omega
      · intro c hc
        rcases List.mem_append.1 hc with hc | hc
        · exact mem_sortDesc.1 (pickCards_subset c (List.mem_of_mem_drop hc))
        · exact mem_sortDesc.1 (pickCards_subset c (List.mem_of_mem_take hc))
      · have hsub : ([14, 2, 3, 4, 5] : List Nat) ⊆ sub.map Card.point_value := hallmem
        have hnd : ([14, 2, 3, 4, 5] : List Nat).Nodup := by decide
        have := (List.subperm_of_subset hnd hsub).length_le
        rw [List.length_map] at this
        simpa using this
    · rw [if_neg hw] at h
      cases h

theorem check_sf_some {cards l : List Card} (h : check_straight_flush cards = some l) :
    ∃ s, 5 ≤ (suited_cards cards s).length ∧
      check_straight (suited_cards cards s) = some l := by
  unfold check_straight_flush at h
  rcases List.exists_of_findSome?_eq_some h with ⟨s, _, hf⟩
  by_cases h5 : 5 ≤ (suited_cards cards s).length
  · rw [if_pos h5] at hf
    exact ⟨s, h5, hf⟩
  · rw [if_neg h5] at hf
    cases hf

theorem check_royal_some {cards l : List Card} (h : check_royal_flush cards = some l) :
    check_straight_flush cards = some l := by
  unfold check_royal_flush at h
  split at h
  next sf hsf =>
    split at h
    · cases h
      exact hsf
    · cases h
  next => cases h

theorem check_royal_none_of_sf_none {cards : List Card}
    (h : check_straight_flush cards = none) : check_royal_flush cards = none := by
  unfold check_royal_flush
  rw [h]

theorem check_flush_some {cards l : List Card} (h : check_flush cards = some l) :
    ∃ s, 5 ≤ (suited_cards cards s).length ∧
      l = (sortDesc (suited_cards cards s)).take 5 := by
  unfold check_flush at h
  cases hf : (suitsInOrder cards).find?
      (fun s => decide (5 ≤ (suited_cards cards s).length)) with
  | none => rw [hf] at h; cases h
  | some s =>
    rw [hf] at h
    simp only [Option.some.injEq] at h
    have := List.find?_some hf
    exact ⟨s, by simpa using this, h.symm⟩

theorem check_four_some {cards l : List Card} (h : check_four_of_a_kind cards = some l) :
    ∃ v, value_count cards v = 4 ∧
      l = cards.filter (fun c => c.point_value == v) ++
          (sortDesc (cards.filter (fun c => c.point_value != v))).take 1 := by
  unfold check_four_of_a_kind at h
  cases hf : (sorted_values_and_counts cards).find? (fun p => p.2 == 4) with
  | none => rw [hf] at h; cases h
  | some p =>
    rw [hf] at h
    simp only [Option.some.injEq] at h
    rcases svac_find_some hf with ⟨hcount, hq, _⟩
    refine ⟨p.1, ?_, h.symm⟩
    have : p.2 = 4 := by simpa using hq
    omega

theorem check_full_house_some {cards l : List Card}
    (h : check_full_house cards = some l) :
    ∃ tv pv, tv ≠ pv ∧ 3 ≤ value_count cards tv ∧ 2 ≤ value_count cards pv ∧
      l = (cards.filter (fun c => c.point_value == tv)).take 3 ++
          (cards.filter (fun c => c.point_value == pv)).take 2 := by
  unfold check_full_house at h
  split at h
  next t hf1 =>
    split at h
    next q hf2 =>
      simp only [Option.some.injEq] at h
      rcases svac_find_some hf1 with ⟨ht2, hqt, _⟩
      rcases svac_find_some hf2 with ⟨hq2, hqq, _⟩
      have h3 : 3 ≤ t.2 := by simpa using hqt
      have hqq2 : q.1 ≠ t.1 ∧ 2 ≤ q.2 := by
        simp only [Bool.and_eq_true, bne_iff_ne, ne_eq] at hqq
        exact ⟨hqq.1, by simpa using hqq.2⟩
      exact ⟨t.1, q.1, fun he => hqq2.1 he.symm, by omega, by omega, h.symm⟩
    next => cases h
  next => cases h

theorem check_three_some {cards l : List Card}
    (h : check_three_of_a_kind cards = some l) :
    ∃ v, value_count cards v = 3 ∧
      l = (cards.filter (fun c => c.point_value == v)).take 3 ++
          (sortDesc (cards.filter (fun c => c.point_value != v))).take 2 := by
  unfold check_three_of_a_kind at h
  cases hf : (sorted_values_and_counts cards).find? (fun p => p.2 == 3) with
  | none => rw [hf] at h; cases h
  | some p =>
    rw [hf] at h
    simp only [Option.some.injEq] at h
    rcases svac_find_some hf with ⟨hcount, hq, _⟩
    refine ⟨p.1, ?_, h.symm⟩
    have : p.2 = 3 := by simpa using hq
    omega

theorem check_pair_some {cards l : List Card} (h : check_pair cards = some l) :
    ∃ v, value_count cards v = 2 ∧
      l = (cards.filter (fun c => c.point_value == v)).take 2 ++
          (sortDesc (cards.filter (fun c => c.point_value != v))).take 3 := by
  unfold check_pair at h
  cases hf : (sorted_values_and_counts cards).find? (fun p => p.2 == 2) with
  | none => rw [hf] at h; cases h
  | some p =>
    rw [hf] at h
    simp only [Option.some.injEq] at h
    rcases svac_find_some hf with ⟨hcount, hq, _⟩
    refine ⟨p.1, ?_, h.symm⟩
    have : p.2 = 2 := by simpa using hq
    omega

theorem svac_fst_nodup (cards : List Card) :
    ((sorted_values_and_counts cards).map Prod.fst).Nodup := by
  unfold sorted_values_and_counts
  rw [List.map_map]
  have hid : (Prod.fst ∘ fun v => (v, value_count cards v)) = id := rfl
  rw [hid, List.map_id]
  exact descValues_nodup.filter _

theorem check_two_pair_some {cards l : List Card} (h : check_two_pair cards = some l) :
    ∃ v1 v2, v1 ≠ v2 ∧ 2 ≤ value_count cards v1 ∧ 2 ≤ value_count cards v2 ∧
      l = (cards.filter (fun c => c.point_value == v1)).take 2 ++
          ((cards.filter (fun c => c.point_value == v2)).take 2 ++
           (sortDesc (cards.filter (fun c =>
             !(decide (c ∈ (cards.filter (fun c => c.point_value == v1)).take 2)) &&
             !(decide (c ∈ (cards.filter (fun c => c.point_value == v2)).take 2))))).take 1) := by
  replace h : (match ((sorted_values_and_counts cards).filter
      (fun p => decide (2 ≤ p.2))).map
      (fun p => (cards.filter (fun c => c.point_value == p.1)).take 2) with
    | p0 :: p1 :: _ =>
      some (p0 ++ p1 ++ (sortDesc (cards.filter
        (fun c => !(decide (c ∈ p0)) && !(decide (c ∈ p1))))).take 1)
    | _ => none) = some l := h
  split at h
  next p0 p1 tail heq =>
    simp only [Option.some.injEq] at h
    cases hfl : (sorted_values_and_counts cards).filter (fun p => decide (2 ≤ p.2)) with
    | nil => rw [hfl] at heq; cases heq
    | cons e1 t1 =>
      rw [hfl] at heq
      cases t1 with
      | nil => simp at heq
      | cons e2 t2 =>
        simp only [List.map_cons, List.cons.injEq] at heq
        obtain ⟨hp0, hp1, -⟩ := heq
        have he1mem : e1 ∈ (sorted_values_and_counts cards).filter
            (fun p => decide (2 ≤ p.2)) := by
          rw [hfl]; exact List.mem_cons_self e1 _
        have he2mem : e2 ∈ (sorted_values_and_counts cards).filter
            (fun p => decide (2 ≤ p.2)) := by
          rw [hfl]; exact List.mem_cons_of_mem e1 (List.mem_cons_self e2 _)
        have he1q : 2 ≤ e1.2 := by simpa using List.of_mem_filter he1mem
        have he2q : 2 ≤ e2.2 := by simpa using List.of_mem_filter he2mem
        have he1c := (mem_svac (List.mem_of_mem_filter he1mem)).1
        have he2c := (mem_svac (List.mem_of_mem_filter he2mem)).1
        have hnodup : (((sorted_values_and_counts cards).filter
            (fun p => decide (2 ≤ p.2))).map Prod.fst).Nodup :=
          ((List.filter_sublist _).map Prod.fst).nodup (svac_fst_nodup cards)
        rw [hfl] at hnodup
        simp only [List.map_cons, List.nodup_cons, List.mem_cons] at hnodup
        have hne : e1.1 ≠ e2.1 := fun he => hnodup.1 (Or.inl he)
        refine ⟨e1.1, e2.1, hne, by omega, by omega, ?_⟩
        rw [← h, ← hp0, ← hp1, List.append_assoc]
  next x heq => cases h

/-! ## Equation lemmas for the cascade -/

theorem selectHand_royal {cards l : List Card} (h : check_royal_flush cards = some l) :
    selectHand cards = (HandType.ROYAL_FLUSH, l) := by
  unfold selectHand
  rw [h]

theorem selectHand_sf {cards l : List Card} (h0 : check_royal_flush cards = none)
    (h : check_straight_flush cards = some l) :
    selectHand cards = (HandType.STRAIGHT_FLUSH, l) := by
  unfold selectHand
  rw [h0, h]

theorem selectHand_four {cards l : List Card} (h0 : check_royal_flush cards = none)
    (h1 : check_straight_flush cards = none)
    (h : check_four_of_a_kind cards = some l) :
    selectHand cards = (HandType.FOUR_OF_A_KIND, l) := by
  unfold selectHand
  rw [h0, h1, h]

theorem selectHand_fh {cards l : List Card} (h0 : check_royal_flush cards = none)
    (h1 : check_straight_flush cards = none)
    (h2 : check_four_of_a_kind cards = none)
    (h : check_full_house cards = some l) :
    selectHand cards = (HandType.FULL_HOUSE, l) := by
  unfold selectHand
  rw [h0, h1, h2, h]

theorem selectHand_flush {cards l : List Card} (h0 : check_royal_flush cards = none)
    (h1 : check_straight_flush cards = none)
    (h2 : check_four_of_a_kind cards = none)
    (h3 : check_full_house cards = none)
    (h : check_flush cards = some l) :
    selectHand cards = (HandType.FLUSH, l) := by
  unfold selectHand
  rw [h0, h1, h2, h3, h]

theorem selectHand_straight {cards l : List Card} (h0 : check_royal_flush cards = none)
    (h1 : check_straight_flush cards = none)
    (h2 : check_four_of_a_kind cards = none)
    (h3 : check_full_house cards = none)
    (h4 : check_flush cards = none)
    (h : check_straight cards = some l) :
    selectHand cards = (HandType.STRAIGHT, l) := by
  unfold selectHand
  rw [h0, h1, h2, h3, h4, h]

theorem selectHand_three {cards l : List Card} (h0 : check_royal_flush cards = none)
    (h1 : check_straight_flush cards = none)
    (h2 : check_four_of_a_kind cards = none)
    (h3 : check_full_house cards = none)
    (h4 : check_flush cards = none)
    (h5 : check_straight cards = none)
    (h : check_three_of_a_kind cards = some l) :
    selectHand cards = (HandType.THREE_OF_A_KIND, l) := by
  unfold selectHand
  rw [h0, h1, h2, h3, h4, h5, h]

theorem selectHand_two_pair {cards l : List Card} (h0 : check_royal_flush cards = none)
    (h1 : check_straight_flush cards = none)
    (h2 : check_four_of_a_kind cards = none)
    (h3 : check_full_house cards = none)
    (h4 : check_flush cards = none)
    (h5 : check_straight cards = none)
    (h6 : check_three_of_a_kind cards = none)
    (h : check_two_pair cards = some l) :
    selectHand cards = (HandType.TWO_PAIR, l) := by
  unfold selectHand
  rw [h0, h1, h2, h3, h4, h5, h6, h]

theorem selectHand_pair {cards l : List Card} (h0 : check_royal_flush cards = none)
    (h1 : check_straight_flush cards = none)
    (h2 : check_four_of_a_kind cards = none)
    (h3 : check_full_house cards = none)
    (h4 : check_flush cards = none)
    (h5 : check_straight cards = none)
    (h6 : check_three_of_a_kind cards = none)
    (h7 : check_two_pair cards = none)
    (h : check_pair cards = some l) :
    selectHand cards = (HandType.PAIR, l) := by
  unfold selectHand
  rw [h0, h1, h2, h3, h4, h5, h6, h7, h]

theorem selectHand_high {cards : List Card} (h0 : check_royal_flush cards = none)
    (h1 : check_straight_flush cards = none)
    (h2 : check_four_of_a_kind cards = none)
    (h3 : check_full_house cards = none)
    (h4 : check_flush cards = none)
    (h5 : check_straight cards = none)
    (h6 : check_three_of_a_kind cards = none)
    (h7 : check_two_pair cards = none)
    (h8 : check_pair cards = none) :
    selectHand cards = (HandType.HIGH_CARD, (sortDesc cards).take 5) := by
  unfold selectHand
  rw [h0, h1, h2, h3, h4, h5, h6, h7, h8]

/-! ## Length facts for the detector outputs -/

theorem bne_eq_not_beq (v : Nat) :
    (fun c : Card => c.point_value != v) = (fun c : Card => !(c.point_value == v)) := rfl

theorem filter_ne_length (cards : List Card) (v : Nat) :
    (cards.filter (fun c => c.point_value != v)).length =
      cards.length - value_count cards v := by
  have := length_filter_split (fun c => c.point_value == v) cards
  rw [bne_eq_not_beq]
  unfold value_count at *
  omega

theorem value_count_le_length (cards : List Card) (v : Nat) :
    value_count cards v ≤ cards.length := List.length_filter_le ..

theorem check_four_length {cards l : List Card} (h : check_four_of_a_kind cards = some l) :
    l.length = 4 + min 1 (cards.length - 4) ∧ 4 ≤ cards.length := by
  rcases check_four_some h with ⟨v, hv, rfl⟩
  have hle := value_count_le_length cards v
  have hq : (cards.filter (fun c => c.point_value == v)).length = 4 := hv
  constructor
  · rw [List.length_append, hq, List.length_take, length_sortDesc, filter_ne_length, hv]
  · omega

theorem check_full_house_length {cards l : List Card}
    (h : check_full_house cards = some l) : l.length = 5 ∧ 5 ≤ cards.length := by
  rcases check_full_house_some h with ⟨tv, pv, hne, h3, h2, rfl⟩
  have hdisj : (cards.filter (fun c => c.point_value == tv)).length +
      (cards.filter (fun c => c.point_value == pv)).length ≤ cards.length := by
    refine length_filter_disjoint _ _ _ ?_
    intro a ha hb
    have ha' : a.point_value = tv := by simpa using ha
    have hb' : a.point_value = pv := by simpa using hb
    exact hne (ha' ▸ hb')
  have h3' : 3 ≤ (cards.filter (fun c => c.point_value == tv)).length := h3
  have h2' : 2 ≤ (cards.filter (fun c => c.point_value == pv)).length := h2
  constructor
  · rw [List.length_append, List.length_take, List.length_take]
    omega
  · omega

theorem check_flush_length {cards l : List Card} (h : check_flush cards = some l) :
    l.length = 5 ∧ 5 ≤ cards.length := by
  rcases check_flush_some h with ⟨s, h5, rfl⟩
  have hle : (suited_cards cards s).length ≤ cards.length := List.length_filter_le ..
  constructor
  · rw [List.length_take, length_sortDesc]
    omega
  · omega

theorem check_three_length {cards l : List Card}
    (h : check_three_of_a_kind cards = some l) :
    l.length = 3 + min 2 (cards.length - 3) ∧ 3 ≤ cards.length := by
  rcases check_three_some h with ⟨v, hv, rfl⟩
  have hle := value_count_le_length cards v
  have hq : (cards.filter (fun c => c.point_value == v)).length = 3 := hv
  constructor
  · rw [List.length_append, List.length_take, List.length_take, length_sortDesc,
      filter_ne_length, hv, hq]
    omega
  · omega

theorem check_pair_length {cards l : List Card} (h : check_pair cards = some l) :
    l.length = 2 + min 3 (cards.length - 2) ∧ 2 ≤ cards.length := by
  rcases check_pair_some h with ⟨v, hv, rfl⟩
  have hle := value_count_le_length cards v
  have hq : (cards.filter (fun c => c.point_value == v)).length = 2 := hv
  constructor
  · rw [List.length_append, List.length_take, List.length_take, length_sortDesc,
      filter_ne_length, hv, hq]
    omega
  · omega

theorem check_two_pair_length_ge {cards l : List Card}
    (h : check_two_pair cards = some l) (hnd : cards.Nodup)
    (h5 : 5 ≤ cards.length) : l.length = 5 := by
  rcases check_two_pair_some h with ⟨v1, v2, hne, h1, h2, rfl⟩
  set p0 := (cards.filter (fun c => c.point_value == v1)).take 2 with hp0
  set p1 := (cards.filter (fun c => c.point_value == v2)).take 2 with hp1
  set pred := fun c => !(decide (c ∈ p0)) && !(decide (c ∈ p1)) with hpred
  have hp0len : p0.length = 2 := by
    rw [hp0, List.length_take]
    have : 2 ≤ value_count cards v1 := h1
    unfold value_count at this
    omega
  have hp1len : p1.length = 2 := by
    rw [hp1, List.length_take]
    have : 2 ≤ value_count cards v2 := h2
    unfold value_count at this
    omega
  have hsplit := length_filter_split pred cards
  have hbad : (cards.filter (fun c => !(pred c))).length ≤ 4 := by
    have hnodup2 : (cards.filter (fun c => !(pred c))).Nodup := hnd.filter _
    have hsub : (cards.filter (fun c => !(pred c))) ⊆ p0 ++ p1 := by
      intro c hc
      rcases List.mem_filter.1 hc with ⟨_, hb⟩
      rw [hpred] at hb
      simp only [Bool.not_and, Bool.not_not, Bool.or_eq_true, decide_eq_true_eq] at hb
      exact List.mem_append.2 hb
    have := (List.subperm_of_subset hnodup2 hsub).length_le
    rw [List.length_append, hp0len, hp1len] at this
    omega
  have hkick : 1 ≤ (cards.filter pred).length := by omega
  rw [List.length_append, List.length_append, hp0len, hp1len, List.length_take,
    length_sortDesc]
  omega

theorem check_two_pair_length_small {cards l : List Card}
    (h : check_two_pair cards = some l) (hsmall : cards.length < 5) :
    l.length = 4 := by
  rcases check_two_pair_some h with ⟨v1, v2, hne, h1, h2, rfl⟩
  have hdisj : (cards.filter (fun c => c.point_value == v1)).length +
      (cards.filter (fun c => c.point_value == v2)).length ≤ cards.length := by
    refine length_filter_disjoint _ _ _ ?_
    intro a ha hb
    have ha' : a.point_value = v1 := by simpa using ha
    have hb' : a.point_value = v2 := by simpa using hb
    exact hne (ha' ▸ hb')
  have h1' : 2 ≤ (cards.filter (fun c => c.point_value == v1)).length := h1
  have h2' : 2 ≤ (cards.filter (fun c => c.point_value == v2)).length := h2
  have hc1 : (cards.filter (fun c => c.point_value == v1)).length = 2 := by omega
  have hc2 : (cards.filter (fun c => c.point_value == v2)).length = 2 := by omega
  have hp0full : (cards.filter (fun c => c.point_value == v1)).take 2 =
      cards.filter (fun c => c.point_value == v1) :=
    List.take_of_length_le (by omega)
  have hp1full : (cards.filter (fun c => c.point_value == v2)).take 2 =
      cards.filter (fun c => c.point_value == v2) :=
    List.take_of_length_le (by omega)
  have hnothird : ∀ c ∈ cards, c.point_value = v1 ∨ c.point_value = v2 := by
    intro c hc
    by_contra hcon
    push_neg at hcon
    rcases hcon with ⟨hv1, hv2⟩
    have hcrest1 : c ∈ cards.filter (fun c => c.point_value != v1) :=
      List.mem_filter.2 ⟨hc, by simpa using hv1⟩
    have hcrest2 : c ∈ (cards.filter (fun c => c.point_value != v1)).filter
        (fun c => c.point_value != v2) :=
      List.mem_filter.2 ⟨hcrest1, by simpa using hv2⟩
    have hrest2pos := List.length_pos_of_mem hcrest2
    have hsplit1 := length_filter_split (fun c => c.point_value == v2)
      (cards.filter (fun c => c.point_value != v1))
    have hcount2 : ((cards.filter (fun c => c.point_value != v1)).filter
        (fun c => c.point_value == v2)).length = 2 := by
      rw [List.filter_filter]
      have hcg : cards.filter (fun c => (c.point_value == v2) && (c.point_value != v1)) =
          cards.filter (fun c => c.point_value == v2) := by
        apply List.filter_congr
        intro a _
        by_cases hv : a.point_value = v2
        · simp [hv, hne.symm]
        · simp [hv]
      rw [hcg, hc2]
    have hrest1 : (cards.filter (fun c => c.point_value != v1)).length =
        cards.length - 2 := by
      rw [filter_ne_length]
      unfold value_count
      omega
    rw [bne_eq_not_beq v2] at hrest2pos
    omega
  have hkickers : cards.filter (fun c =>
      !(decide (c ∈ (cards.filter (fun c => c.point_value == v1)).take 2)) &&
      !(decide (c ∈ (cards.filter (fun c => c.point_value == v2)).take 2))) = [] := by
    rw [List.filter_eq_nil_iff]
    intro c hc
    rcases hnothird c hc with hv | hv
    · have : c ∈ (cards.filter (fun c => c.point_value == v1)).take 2 := by
        rw [hp0full]
        exact List.mem_filter.2 ⟨hc, by simpa using hv⟩
      simp [this]
    · have : c ∈ (cards.filter (fun c => c.point_value == v2)).take 2 := by
        rw [hp1full]
        exact List.mem_filter.2 ⟨hc, by simpa using hv⟩
      simp [this]
  rw [List.length_append, List.length_append, hkickers, List.length_take,
    List.length_take, hc1, hc2]
  simp [sortDesc]

/-! ## Master facts about the scoring cards of the cascade -/

theorem selectHand_subset (cards : List Card) :
    ∀ c ∈ (selectHand cards).2, c ∈ cards := by
  cases h0 : check_royal_flush cards with
  | some l =>
    rw [selectHand_royal h0]
    rcases check_sf_some (check_royal_some h0) with ⟨s, _, hst⟩
    intro c hc
    exact List.mem_of_mem_filter ((check_straight_some hst).2.1 c hc)
  | none =>
  cases h1 : check_straight_flush cards with
  | some l =>
    rw [selectHand_sf h0 h1]
    rcases check_sf_some h1 with ⟨s, _, hst⟩
    intro c hc
    exact List.mem_of_mem_filter ((check_straight_some hst).2.1 c hc)
  | none =>
  cases h2 : check_four_of_a_kind cards with
  | some l =>
    rw [selectHand_four h0 h1 h2]
    rcases check_four_some h2 with ⟨v, _, rfl⟩
    intro c hc
    rcases List.mem_append.1 hc with hc | hc
    · exact List.mem_of_mem_filter hc
    · exact List.mem_of_mem_filter (mem_sortDesc.1 (List.mem_of_mem_take hc))
  | none =>
  cases h3 : check_full_house cards with
  | some l =>
    rw [selectHand_fh h0 h1 h2 h3]
    rcases check_full_house_some h3 with ⟨tv, pv, _, _, _, rfl⟩
    intro c hc
    rcases List.mem_append.1 hc with hc | hc
    · exact List.mem_of_mem_filter (List.mem_of_mem_take hc)
    · exact List.mem_of_mem_filter (List.mem_of_mem_take hc)
  | none =>
  cases h4 : check_flush cards with
  | some l =>
    rw [selectHand_flush h0 h1 h2 h3 h4]
    rcases check_flush_some h4 with ⟨s, _, rfl⟩
    intro c hc
    exact List.mem_of_mem_filter (mem_sortDesc.1 (List.mem_of_mem_take hc))
  | none =>
  cases h5 : check_straight cards with
  | some l =>
    rw [selectHand_straight h0 h1 h2 h3 h4 h5]
    intro c hc
    exact (check_straight_some h5).2.1 c hc
  | none =>
  cases h6 : check_three_of_a_kind cards with
  | some l =>
    rw [selectHand_three h0 h1 h2 h3 h4 h5 h6]
    rcases check_three_some h6 with ⟨v, _, rfl⟩
    intro c hc
    rcases List.mem_append.1 hc with hc | hc
    · exact List.mem_of_mem_filter (List.mem_of_mem_take hc)
    · exact List.mem_of_mem_filter (mem_sortDesc.1 (List.mem_of_mem_take hc))
  | none =>
  cases h7 : check_two_pair cards with
  | some l =>
    rw [selectHand_two_pair h0 h1 h2 h3 h4 h5 h6 h7]
    rcases check_two_pair_some h7 with ⟨v1, v2, _, _, _, rfl⟩
    intro c hc
    rcases List.mem_append.1 hc with hc | hc
    · exact List.mem_of_mem_filter (List.mem_of_mem_take hc)
    · rcases List.mem_append.1 hc with hc | hc
      · exact List.mem_of_mem_filter (List.mem_of_mem_take hc)
      · exact List.mem_of_mem_filter (mem_sortDesc.1 (List.mem_of_mem_take hc))
  | none =>
  cases h8 : check_pair cards with
  | some l =>
    rw [selectHand_pair h0 h1 h2 h3 h4 h5 h6 h7 h8]
    rcases check_pair_some h8 with ⟨v, _, rfl⟩
    intro c hc
    rcases List.mem_append.1 hc with hc | hc
    · exact List.mem_of_mem_filter (List.mem_of_mem_take hc)
    · exact List.mem_of_mem_filter (mem_sortDesc.1 (List.mem_of_mem_take hc))
  | none =>
    rw [selectHand_high h0 h1 h2 h3 h4 h5 h6 h7 h8]
    intro c hc
    exact mem_sortDesc.1 (List.mem_of_mem_take hc)

theorem selectHand_len5 {cards : List Card} (h5 : 5 ≤ cards.length)
    (hnd : cards.Nodup) : (selectHand cards).2.length = 5 := by
  cases h0 : check_royal_flush cards with
  | some l =>
    rw [selectHand_royal h0]
    rcases check_sf_some (check_royal_some h0) with ⟨s, _, hst⟩
    exact (check_straight_some hst).1
  | none =>
  cases h1 : check_straight_flush cards with
  | some l =>
    rw [selectHand_sf h0 h1]
    rcases check_sf_some h1 with ⟨s, _, hst⟩
    exact (check_straight_some hst).1
  | none =>
  cases h2 : check_four_of_a_kind cards with
  | some l =>
    rw [selectHand_four h0 h1 h2]
    show l.length = 5
    have := check_four_length h2
    omega
  | none =>
  cases h3 : check_full_house cards with
  | some l =>
    rw [selectHand_fh h0 h1 h2 h3]
    exact (check_full_house_length h3).1
  | none =>
  cases h4 : check_flush cards with
  | some l =>
    rw [selectHand_flush h0 h1 h2 h3 h4]
    exact (check_flush_length h4).1
  | none =>
  cases h5x : check_straight cards with
  | some l =>
    rw [selectHand_straight h0 h1 h2 h3 h4 h5x]
    exact (check_straight_some h5x).1
  | none =>
  cases h6 : check_three_of_a_kind cards with
  | some l =>
    rw [selectHand_three h0 h1 h2 h3 h4 h5x h6]
    show l.length = 5
    have := check_three_length h6
    omega
  | none =>
  cases h7 : check_two_pair cards with
  | some l =>
    rw [selectHand_two_pair h0 h1 h2 h3 h4 h5x h6 h7]
    exact check_two_pair_length_ge h7 hnd h5
  | none =>
  cases h8 : check_pair cards with
  | some l =>
    rw [selectHand_pair h0 h1 h2 h3 h4 h5x h6 h7 h8]
    show l.length = 5
    have := check_pair_length h8
    omega
  | none =>
    rw [selectHand_high h0 h1 h2 h3 h4 h5x h6 h7 h8]
    show ((sortDesc cards).take 5).length = 5
    rw [List.length_take, length_sortDesc]
    omega

theorem selectHand_small {cards : List Card} (hsmall : cards.length < 5) :
    (selectHand cards).2.length < 5 := by
  cases h0 : check_royal_flush cards with
  | some l =>
    rcases check_sf_some (check_royal_some h0) with ⟨s, hlen, _⟩
    have := List.length_filter_le (fun c => c.suit == s) cards
    unfold suited_cards at hlen
    omega
  | none =>
  cases h1 : check_straight_flush cards with
  | some l =>
    rcases check_sf_some h1 with ⟨s, hlen, _⟩
    have := List.length_filter_le (fun c => c.suit == s) cards
    unfold suited_cards at hlen
    omega
  | none =>
  cases h2 : check_four_of_a_kind cards with
  | some l =>
    rw [selectHand_four h0 h1 h2]
    show l.length < 5
    have := check_four_length h2
    omega
  | none =>
  cases h3 : check_full_house cards with
  | some l =>
    have := (check_full_house_length h3).2
    omega
  | none =>
  cases h4 : check_flush cards with
  | some l =>
    have := (check_flush_length h4).2
    omega
  | none =>
  cases h5x : check_straight cards with
  | some l =>
    have := (check_straight_some h5x).2.2
    omega
  | none =>
  cases h6 : check_three_of_a_kind cards with
  | some l =>
    rw [selectHand_three h0 h1 h2 h3 h4 h5x h6]
    show l.length < 5
    have := check_three_length h6
    omega
  | none =>
  cases h7 : check_two_pair cards with
  | some l =>
    rw [selectHand_two_pair h0 h1 h2 h3 h4 h5x h6 h7]
    show l.length < 5
    have := check_two_pair_length_small h7 hsmall
    omega
  | none =>
  cases h8 : check_pair cards with
  | some l =>
    rw [selectHand_pair h0 h1 h2 h3 h4 h5x h6 h7 h8]
    show l.length < 5
    have := check_pair_length h8
    omega
  | none =>
    rw [selectHand_high h0 h1 h2 h3 h4 h5x h6 h7 h8]
    show ((sortDesc cards).take 5).length < 5
    rw [List.length_take, length_sortDesc]
    omega

/-! ## Score arithmetic -/

theorem weightedSum_lt (l : List Card) : weightedSum l < 16 ^ l.length := by
  induction l with
  | nil => simp [weightedSum]
  | cons c cs ih =>
    have hpv := point_value_le c
    simp only [weightedSum, List.length_cons]
    calc c.point_value * 16 ^ cs.length + weightedSum cs
        < c.point_value * 16 ^ cs.length + 16 ^ cs.length :=
          Nat.add_lt_add_left ih _
      _ ≤ 14 * 16 ^ cs.length + 16 ^ cs.length :=
          Nat.add_le_add_right (Nat.mul_le_mul_right _ hpv) _
      _ = 15 * 16 ^ cs.length := by ring
      _ ≤ 16 * 16 ^ cs.length := Nat.mul_le_mul_right _ (by omega)
      _ = 16 ^ (cs.length + 1) := by ring

theorem weightedSum_eq_of_map_eq {l1 l2 : List Card}
    (h : l1.map Card.point_value = l2.map Card.point_value) :
    weightedSum l1 = weightedSum l2 := by
  induction l1 generalizing l2 with
  | nil =>
    cases l2 with
    | nil => rfl
    | cons d ds => simp at h
  | cons c cs ih =>
    cases l2 with
    | nil => simp at h
    | cons d ds =>
      simp only [List.map_cons, List.cons.injEq] at h
      have hlen : cs.length = ds.length := by
        have := congrArg List.length h.2
        simpa using this
      simp [weightedSum, h.1, ih h.2, hlen]

theorem score_hand_score (cards : List Card) :
    (score_hand cards).2.1 = weightedSum (selectHand cards).2 +
      (selectHand cards).1.value * 16 ^ (selectHand cards).2.length := rfl

/-! ## Claim theorems -/

/-- C1: for every two valid corpora (size at least 5, no duplicate cards), if
evaluating the first yields a hand category strictly higher in the order
High Card < Pair < Two Pair < Three of a Kind < Straight < Flush <
Full House < Four of a Kind < Straight Flush < Royal Flush (i.e. with a
strictly greater `HandType.value`) than evaluating the second, then the
first's integer score is strictly greater than the second's, regardless of
the rank values of either hand's five scoring cards; the score is the sum of
each scoring card's rank value times the positional weights 16^4..16^0 plus
the category's enum value times 16^5. -/
theorem claim_C1 (cs1 cs2 : List Card)
    (hlen1 : 5 ≤ cs1.length) (hnd1 : cs1.Nodup)
    (hlen2 : 5 ≤ cs2.length) (hnd2 : cs2.Nodup)
    (hcat : (score_hand cs2).1.value < (score_hand cs1).1.value) :
    (score_hand cs2).2.1 < (score_hand cs1).2.1 := by
  rw [score_hand_score, score_hand_score]
  rw [selectHand_len5 hlen1 hnd1, selectHand_len5 hlen2 hnd2]
  have hw1 := weightedSum_lt (selectHand cs1).2
  have hw2 := weightedSum_lt (selectHand cs2).2
  rw [selectHand_len5 hlen1 hnd1] at hw1
  rw [selectHand_len5 hlen2 hnd2] at hw2
  have hv : (score_hand cs2).1.value = (selectHand cs2).1.value := rfl
  have hv1 : (score_hand cs1).1.value = (selectHand cs1).1.value := rfl
  rw [hv, hv1] at hcat
  have hpow : (16 : Nat) ^ 5 = 1048576 := by norm_num
  rw [hpow] at hw1 hw2 ⊢
  omega

/-- C1 witness: a concrete pair-of-aces corpus strictly outscores a concrete
king-high corpus. -/
theorem claim_C1_witness :
    5 ≤ corpusPairAces.length ∧ corpusPairAces.Nodup ∧
    5 ≤ corpusHighCard.length ∧ corpusHighCard.Nodup ∧
    (score_hand corpusHighCard).1.value < (score_hand corpusPairAces).1.value ∧
    (score_hand corpusHighCard).2.1 < (score_hand corpusPairAces).2.1 :=
  ⟨by decide, by decide, by decide, by decide, by decide,
   claim_C1 corpusPairAces corpusHighCard (by decide) (by decide) (by decide)
     (by decide) (by decide)⟩

/-- C2: for every valid 7-card corpus (no duplicate cards), the scoring-card
sequence of the evaluation result has length exactly 5 and every card in it
is a member of the input corpus, whichever category branch produced it. -/
theorem claim_C2 (cards : List Card) (h7 : cards.length = 7) (hnd : cards.Nodup) :
    (score_hand cards).2.2.length = 5 ∧
      ∀ c ∈ (score_hand cards).2.2, c ∈ cards :=
  ⟨selectHand_len5 (by omega) hnd, selectHand_subset cards⟩

/-- C2 witness: the invariant holds on a concrete 7-card corpus. -/
theorem claim_C2_witness :
    corpusPairAces.length = 7 ∧ corpusPairAces.Nodup ∧
    (score_hand corpusPairAces).2.2.length = 5 ∧
    ∀ c ∈ (score_hand corpusPairAces).2.2, c ∈ corpusPairAces := by
  refine ⟨by decide, by decide, ?_⟩
  exact claim_C2 corpusPairAces (by decide) (by decide)

/-! ## Claims about the straight and full-house detectors -/

theorem mem_allSuits (t : Suit) : t ∈ allSuits := by
  cases t <;> decide

/-- C3: for every valid corpus in which no straight with high card 6..14
exists but the ranks {14,2,3,4,5} are all present, and no higher category
applies, evaluation classifies the hand as Straight and returns scoring
cards with point values ordered 5,4,3,2,Ace (the Ace last). -/
theorem claim_C3 (cards : List Card)
    (hsf : check_straight_flush cards = none)
    (h4k : check_four_of_a_kind cards = none)
    (hfh : check_full_house cards = none)
    (hfl : check_flush cards = none)
    (hno : ∀ v ∈ descValues, 6 ≤ v →
      ¬ (∀ w ∈ needed_values v, w ∈ cards.map Card.point_value))
    (hwheel : ∀ w ∈ ([14, 2, 3, 4, 5] : List Nat), w ∈ cards.map Card.point_value) :
    (score_hand cards).1 = HandType.STRAIGHT ∧
    (score_hand cards).2.2.map Card.point_value = [5, 4, 3, 2, 14] := by
  have hroyal := check_royal_none_of_sf_none hsf
  have hscan := straightScan_none_of_no_straight hno
  have hallb : (([14, 2, 3, 4, 5] : List Nat).all
      (fun v => decide (v ∈ cards.map Card.point_value))) = true := by
    rw [List.all_eq_true]
    intro v hv
    simpa using hwheel v hv
  have hcs : check_straight cards = some
      ((pickCards (sortDesc cards) [14, 5, 4, 3, 2]).drop 1 ++
       (pickCards (sortDesc cards) [14, 5, 4, 3, 2]).take 1) := by
    show (match straightScan (cards.map Card.point_value) (sortDesc cards) with
      | some high => some (pickCards (sortDesc cards) (needed_values high))
      | none =>
        if ([14, 2, 3, 4, 5] : List Nat).all
            (fun v => decide (v ∈ cards.map Card.point_value)) then
          some ((pickCards (sortDesc cards) [14, 5, 4, 3, 2]).drop 1 ++
                (pickCards (sortDesc cards) [14, 5, 4, 3, 2]).take 1)
        else none) = _
    rw [hscan, if_pos hallb]
  have hsel := selectHand_straight hroyal hsf h4k hfh hfl hcs
  have hpres : ∀ v ∈ ([14, 5, 4, 3, 2] : List Nat),
      ∃ c ∈ sortDesc cards, c.point_value = v := by
    intro v hv
    have hv2 : v ∈ ([14, 2, 3, 4, 5] : List Nat) := by
      simp only [List.mem_cons, List.not_mem_nil, or_false] at hv ⊢
      tauto
    rcases List.mem_map.1 (hwheel v hv2) with ⟨c, hc, hcv⟩
    exact ⟨c, mem_sortDesc.2 hc, hcv⟩
  have hmap := pickCards_map_values hpres
  constructor
  · show (selectHand cards).1 = HandType.STRAIGHT
    rw [hsel]
  · show ((selectHand cards).2).map Card.point_value = [5, 4, 3, 2, 14]
    rw [hsel]
    show ((pickCards (sortDesc cards) [14, 5, 4, 3, 2]).drop 1 ++
          (pickCards (sortDesc cards) [14, 5, 4, 3, 2]).take 1).map Card.point_value =
      [5, 4, 3, 2, 14]
    rw [List.map_append, List.map_drop, List.map_take, hmap]
    rfl

/-- C3 witness: the corpus {A♠,2♥,3♠,4♣,5♥,7♦,9♣} evaluates to a Straight
whose scoring cards are ordered 5,4,3,2,A. -/
theorem claim_C3_witness :
    (score_hand corpusWheel).1 = HandType.STRAIGHT ∧
    (score_hand corpusWheel).2.2.map Card.point_value = [5, 4, 3, 2, 14] :=
  claim_C3 corpusWheel (by decide) (by decide) (by decide) (by decide)
    (by decide) (by decide)

/-- The two `find?` calls of `check_full_house` determine its result. -/
theorem check_full_house_eq {cards : List Card} {t q : Nat × Nat}
    (h1 : (sorted_values_and_counts cards).find? (fun p => decide (3 ≤ p.2)) = some t)
    (h2 : (sorted_values_and_counts cards).find?
      (fun p => p.1 != t.1 && decide (2 ≤ p.2)) = some q) :
    check_full_house cards = some
      ((cards.filter (fun c => c.point_value == t.1)).take 3 ++
       (cards.filter (fun c => c.point_value == q.1)).take 2) := by
  unfold check_full_house
  rw [h1]
  show (match (sorted_values_and_counts cards).find?
      (fun p => p.1 != t.1 && decide (2 ≤ p.2)) with
    | some q => some
        ((cards.filter (fun c : Card => c.point_value == t.1)).take 3 ++
         (cards.filter (fun c : Card => c.point_value == q.1)).take 2)
    | none => none) = _
  rw [h2]

/-- C7: for every valid corpus with a rank of count at least 3 and another
rank of count at least 2 (and no higher category applying), the full-house
detector selects the highest such rank as the triple and, excluding it, the
highest rank of count at least 2 as the pair, returning the three triple
cards followed by the two pair cards, and evaluation yields Full House with
exactly those scoring cards. -/
theorem claim_C7 (cards : List Card) (tv pv : Nat)
    (hsf : check_straight_flush cards = none)
    (h4k : check_four_of_a_kind cards = none)
    (htv3 : 3 ≤ value_count cards tv)
    (htvmax : ∀ v ∈ descValues, 3 ≤ value_count cards v → v ≤ tv)
    (hpv2 : 2 ≤ value_count cards pv) (hpvne : pv ≠ tv)
    (hpvmax : ∀ v ∈ descValues, v ≠ tv → 2 ≤ value_count cards v → v ≤ pv) :
    check_full_house cards = some
      ((cards.filter (fun c => c.point_value == tv)).take 3 ++
       (cards.filter (fun c => c.point_value == pv)).take 2) ∧
    (score_hand cards).1 = HandType.FULL_HOUSE ∧
    (score_hand cards).2.2 =
      (cards.filter (fun c => c.point_value == tv)).take 3 ++
      (cards.filter (fun c => c.point_value == pv)).take 2 := by
  have hfind1 : (sorted_values_and_counts cards).find? (fun p => decide (3 ≤ p.2)) =
      some (tv, value_count cards tv) := by
    refine svac_find_eq cards _ tv (by omega) (by simpa using htv3) ?_
    intro w hw _ hq
    exact htvmax w hw (by simpa using hq)
  have hfind2 : (sorted_values_and_counts cards).find?
      (fun p => p.1 != (tv, value_count cards tv).1 && decide (2 ≤ p.2)) =
      some (pv, value_count cards pv) := by
    refine svac_find_eq cards _ pv (by omega) ?_ ?_
    · simp only [Bool.and_eq_true, bne_iff_ne, ne_eq, decide_eq_true_eq]
      exact ⟨hpvne, hpv2⟩
    · intro w hw _ hq
      simp only [Bool.and_eq_true, bne_iff_ne, ne_eq, decide_eq_true_eq] at hq
      exact hpvmax w hw hq.1 hq.2
  have hfh : check_full_house cards = some
      ((cards.filter (fun c => c.point_value == tv)).take 3 ++
       (cards.filter (fun c => c.point_value == pv)).take 2) :=
    check_full_house_eq hfind1 hfind2
  have hroyal := check_royal_none_of_sf_none hsf
  have hsel := selectHand_fh hroyal hsf h4k hfh
  refine ⟨hfh, ?_, ?_⟩
  · show (selectHand cards).1 = HandType.FULL_HOUSE
    rw [hsel]
  · show (selectHand cards).2 = _
    rw [hsel]

/-- C7 witness: three kings and three fours evaluate to a Full House with
the kings as the triple and two fours as the pair, never the reverse. -/
theorem claim_C7_witness :
    check_full_house corpusKingsFours = some
      ((corpusKingsFours.filter (fun c => c.point_value == 13)).take 3 ++
       (corpusKingsFours.filter (fun c => c.point_value == 4)).take 2) ∧
    (score_hand corpusKingsFours).1 = HandType.FULL_HOUSE ∧
    (score_hand corpusKingsFours).2.2 =
      (corpusKingsFours.filter (fun c => c.point_value == 13)).take 3 ++
      (corpusKingsFours.filter (fun c => c.point_value == 4)).take 2 :=
  claim_C7 corpusKingsFours 13 4 (by decide) (by decide) (by decide)
    (by decide) (by decide) (by decide) (by decide)

/-! ## The flush detector claim -/

theorem mem_suitsInOrderAux {x : Suit} (l : List Suit) : ∀ seen : List Suit,
    x ∈ suitsInOrderAux seen l ↔ x ∈ l ∧ x ∉ seen := by
  induction l with
  | nil =>
    intro seen
    simp [suitsInOrderAux]
  | cons s rest ih =>
    intro seen
    simp only [suitsInOrderAux]
    by_cases hs : s ∈ seen
    · rw [if_pos hs, ih seen]
      constructor
      · rintro ⟨h1, h2⟩
        exact ⟨List.mem_cons_of_mem s h1, h2⟩
      · rintro ⟨h1, h2⟩
        rcases List.mem_cons.1 h1 with rfl | h1
        · exact absurd hs h2
        · exact ⟨h1, h2⟩
    · rw [if_neg hs]
      constructor
      · intro hmem
        rcases List.mem_cons.1 hmem with rfl | hmem
        · exact ⟨List.mem_cons_self x rest, hs⟩
        · rcases (ih (s :: seen)).1 hmem with ⟨h1, h2⟩
          exact ⟨List.mem_cons_of_mem s h1,
            fun hx => h2 (List.mem_cons_of_mem s hx)⟩
      · rintro ⟨h1, h2⟩
        by_cases hxs : x = s
        · subst hxs
          exact List.mem_cons_self x _
        · rcases List.mem_cons.1 h1 with rfl | h1
          · exact absurd rfl hxs
          · refine List.mem_cons_of_mem s ((ih (s :: seen)).2 ⟨h1, ?_⟩)
            intro hx
            rcases List.mem_cons.1 hx with h | h
            · exact hxs h
            · exact h2 h

theorem mem_suitsInOrder {cards : List Card} {x : Suit} :
    x ∈ suitsInOrder cards ↔ ∃ c ∈ cards, c.suit = x := by
  unfold suitsInOrder
  rw [mem_suitsInOrderAux]
  simp [List.mem_map]

/-- C8: for every valid corpus in which suit `s` has at least five cards and
no other suit does, the flush detector returns exactly the top five cards of
that suit ordered by point value descending: five suited cards, sorted, and
every excluded suited card ranks no higher than any returned card. -/
theorem claim_C8 (cards : List Card) (s : Suit)
    (h5 : 5 ≤ (suited_cards cards s).length)
    (huniq : ∀ t ∈ allSuits, t ≠ s → (suited_cards cards t).length < 5) :
    ∃ l, check_flush cards = some l ∧ l.length = 5 ∧
      (∀ c ∈ l, c ∈ suited_cards cards s) ∧
      l.Pairwise (fun a b => b.point_value ≤ a.point_value) ∧
      (∀ c ∈ suited_cards cards s, c ∉ l →
        ∀ d ∈ l, c.point_value ≤ d.point_value) := by
  have hsmem : s ∈ suitsInOrder cards := by
    rw [mem_suitsInOrder]
    have hne : suited_cards cards s ≠ [] := by
      intro he
      rw [he] at h5
      simp at h5
    rcases List.exists_mem_of_ne_nil _ hne with ⟨c, hc⟩
    rcases List.mem_filter.1 hc with ⟨hmem, hsuit⟩
    exact ⟨c, hmem, by simpa using hsuit⟩
  have hfsome : ((suitsInOrder cards).find?
      (fun t => decide (5 ≤ (suited_cards cards t).length))).isSome := by
    rw [List.find?_isSome]
    exact ⟨s, hsmem, by simpa using h5⟩
  rcases Option.isSome_iff_exists.1 hfsome with ⟨t, hfind⟩
  have htlen : 5 ≤ (suited_cards cards t).length := by
    simpa using List.find?_some hfind
  have hts : t = s := by
    by_contra hne
    have := huniq t (mem_allSuits t) hne
    omega
  subst hts
  have hcf : check_flush cards = some ((sortDesc (suited_cards cards t)).take 5) := by
    unfold check_flush
    rw [hfind]
  refine ⟨(sortDesc (suited_cards cards t)).take 5, hcf, ?_, ?_, ?_, ?_⟩
  · rw [List.length_take, length_sortDesc]
    omega
  · intro c hc
    exact mem_sortDesc.1 (List.mem_of_mem_take hc)
  · exact (sortDesc_pairwise _).sublist (List.take_sublist ..)
  · intro c hcs hnot d hd
    have hcsort : c ∈ (sortDesc (suited_cards cards t)).take 5 ++
        (sortDesc (suited_cards cards t)).drop 5 := by
      rw [List.take_append_drop]
      exact mem_sortDesc.2 hcs
    rcases List.mem_append.1 hcsort with hc | hc
    · exact absurd hc hnot
    · have hsorted := sortDesc_pairwise (suited_cards cards t)
      rw [← List.take_append_drop 5 (sortDesc (suited_cards cards t))] at hsorted
      rcases List.pairwise_append.1 hsorted with ⟨_, _, hcross⟩
      exact hcross d hd c hc

/-- C8 witness: with six spades in the corpus the detector returns the top
five spades by rank descending, excluding the lowest spade. -/
theorem claim_C8_witness :
    5 ≤ (suited_cards corpusSixSpades Suit.SPADES).length ∧
    (∃ l, check_flush corpusSixSpades = some l ∧ l.length = 5 ∧
      (∀ c ∈ l, c ∈ suited_cards corpusSixSpades Suit.SPADES) ∧
      l.Pairwise (fun a b => b.point_value ≤ a.point_value) ∧
      (∀ c ∈ suited_cards corpusSixSpades Suit.SPADES, c ∉ l →
        ∀ d ∈ l, c.point_value ≤ d.point_value)) :=
  ⟨by decide, claim_C8 corpusSixSpades Suit.SPADES (by decide) (by decide)⟩

/-! ## Showdown comparison -/

theorem determine_winner_player {g : GameState}
    (h : g.game_phase = GamePhase.SHOWDOWN)
    (hlt : (score_hand (g.computer_hand ++ g.community_cards)).2.1 <
           (score_hand (g.player_hand ++ g.community_cards)).2.1) :
    determine_winner g =
      ({ g with winner := some "player",
                winner_hand := some (score_hand (g.player_hand ++ g.community_cards)).1 },
       some "player") := by
  unfold determine_winner
  rw [h]
  simp [hlt]

theorem determine_winner_computer {g : GameState}
    (h : g.game_phase = GamePhase.SHOWDOWN)
    (hlt : (score_hand (g.player_hand ++ g.community_cards)).2.1 <
           (score_hand (g.computer_hand ++ g.community_cards)).2.1) :
    determine_winner g =
      ({ g with winner := some "computer",
                winner_hand := some (score_hand (g.computer_hand ++ g.community_cards)).1 },
       some "computer") := by
  unfold determine_winner
  rw [h]
  have hn : ¬ (score_hand (g.computer_hand ++ g.community_cards)).2.1 <
      (score_hand (g.player_hand ++ g.community_cards)).2.1 := by omega
  simp [hn, hlt]

theorem determine_winner_tie_eq {g : GameState}
    (h : g.game_phase = GamePhase.SHOWDOWN)
    (heq : (score_hand (g.player_hand ++ g.community_cards)).2.1 =
           (score_hand (g.computer_hand ++ g.community_cards)).2.1) :
    determine_winner g =
      ({ g with winner := some "computer",
                winner_hand := some (score_hand (g.computer_hand ++ g.community_cards)).1 },
       some "tie") := by
  unfold determine_winner
  rw [h]
  have hn1 : ¬ (score_hand (g.computer_hand ++ g.community_cards)).2.1 <
      (score_hand (g.player_hand ++ g.community_cards)).2.1 := by omega
  have hn2 : ¬ (score_hand (g.player_hand ++ g.community_cards)).2.1 <
      (score_hand (g.computer_hand ++ g.community_cards)).2.1 := by omega
  simp [hn1, hn2]

/-- C4 counterexample to the claim as stated: at showdown the player's royal
flush and the computer's offsuit broadway straight have identical
scoring-card rank sequences, yet the scores differ and the comparator does
not report a tie. -/
theorem claim_C4_counterexample :
    (score_hand (gRoyalVsBroadway.player_hand ++
        gRoyalVsBroadway.community_cards)).2.2.map Card.point_value =
      (score_hand (gRoyalVsBroadway.computer_hand ++
        gRoyalVsBroadway.community_cards)).2.2.map Card.point_value ∧
    (score_hand (gRoyalVsBroadway.player_hand ++
        gRoyalVsBroadway.community_cards)).2.1 ≠
      (score_hand (gRoyalVsBroadway.computer_hand ++
        gRoyalVsBroadway.community_cards)).2.1 ∧
    (determine_winner gRoyalVsBroadway).2 ≠ some "tie" := by
  refine ⟨by decide, by decide, ?_⟩
  have h := determine_winner_player (g := gRoyalVsBroadway) (by decide) (by decide)
  rw [h]
  decide

/-- C4 (amended): the winner determination at showdown is a three-way
comparison of the two integer scores — "player" iff the player's score is
strictly greater, "computer" iff the computer's is strictly greater, "tie"
iff they are equal; and two corpora yielding the same hand category and
identical scoring-card rank sequences produce equal scores, so the
comparator reports a tie. -/
theorem claim_C4_amended (g : GameState) (h : g.game_phase = GamePhase.SHOWDOWN) :
    ((determine_winner g).2 = some "player" ↔
      (score_hand (g.computer_hand ++ g.community_cards)).2.1 <
      (score_hand (g.player_hand ++ g.community_cards)).2.1) ∧
    ((determine_winner g).2 = some "computer" ↔
      (score_hand (g.player_hand ++ g.community_cards)).2.1 <
      (score_hand (g.computer_hand ++ g.community_cards)).2.1) ∧
    ((determine_winner g).2 = some "tie" ↔
      (score_hand (g.player_hand ++ g.community_cards)).2.1 =
      (score_hand (g.computer_hand ++ g.community_cards)).2.1) ∧
    ((score_hand (g.player_hand ++ g.community_cards)).1 =
        (score_hand (g.computer_hand ++ g.community_cards)).1 →
      (score_hand (g.player_hand ++ g.community_cards)).2.2.map Card.point_value =
        (score_hand (g.computer_hand ++ g.community_cards)).2.2.map Card.point_value →
      (determine_winner g).2 = some "tie") := by
  have hscore : (score_hand (g.player_hand ++ g.community_cards)).1 =
        (score_hand (g.computer_hand ++ g.community_cards)).1 →
      (score_hand (g.player_hand ++ g.community_cards)).2.2.map Card.point_value =
        (score_hand (g.computer_hand ++ g.community_cards)).2.2.map Card.point_value →
      (score_hand (g.player_hand ++ g.community_cards)).2.1 =
        (score_hand (g.computer_hand ++ g.community_cards)).2.1 := by
    intro hcat hmap
    rw [score_hand_score, score_hand_score]
    have hws : weightedSum (selectHand (g.player_hand ++ g.community_cards)).2 =
        weightedSum (selectHand (g.computer_hand ++ g.community_cards)).2 :=
      weightedSum_eq_of_map_eq hmap
    have hlen : (selectHand (g.player_hand ++ g.community_cards)).2.length =
        (selectHand (g.computer_hand ++ g.community_cards)).2.length := by
      have := congrArg List.length hmap
      simpa using this
    have hcat' : (selectHand (g.player_hand ++ g.community_cards)).1.value =
        (selectHand (g.computer_hand ++ g.community_cards)).1.value := by
      show (score_hand (g.player_hand ++ g.community_cards)).1.value = _
      rw [hcat]
      rfl
    rw [hws, hlen, hcat']
  rcases Nat.lt_trichotomy
      (score_hand (g.player_hand ++ g.community_cards)).2.1
      (score_hand (g.computer_hand ++ g.community_cards)).2.1 with hlt | heq | hgt
  · rw [determine_winner_computer h hlt]
    refine ⟨?_, ?_, ?_, ?_⟩
    · simp
      omega
    · simp [hlt]
    · simp
      omega
    · intro hcat hmap
      have := hscore hcat hmap
      omega
  · rw [determine_winner_tie_eq h heq]
    refine ⟨?_, ?_, ?_, ?_⟩
    · simp
      omega
    · simp
      omega
    · simp [heq]
    · intro _ _
      rfl
  · rw [determine_winner_player h hgt]
    refine ⟨?_, ?_, ?_, ?_⟩
    · simp [hgt]
    · simp
      omega
    · simp
      omega
    · intro hcat hmap
      have := hscore hcat hmap
      omega

/-- C4 witness: in a concrete tie state the comparator reports a tie, and
the two iff characterizations hold. -/
theorem claim_C4_witness :
    gShowdownTie.game_phase = GamePhase.SHOWDOWN ∧
    (((determine_winner gShowdownTie).2 = some "player" ↔
      (score_hand (gShowdownTie.computer_hand ++ gShowdownTie.community_cards)).2.1 <
      (score_hand (gShowdownTie.player_hand ++ gShowdownTie.community_cards)).2.1) ∧
    ((determine_winner gShowdownTie).2 = some "computer" ↔
      (score_hand (gShowdownTie.player_hand ++ gShowdownTie.community_cards)).2.1 <
      (score_hand (gShowdownTie.computer_hand ++ gShowdownTie.community_cards)).2.1) ∧
    ((determine_winner gShowdownTie).2 = some "tie" ↔
      (score_hand (gShowdownTie.player_hand ++ gShowdownTie.community_cards)).2.1 =
      (score_hand (gShowdownTie.computer_hand ++ gShowdownTie.community_cards)).2.1) ∧
    ((score_hand (gShowdownTie.player_hand ++ gShowdownTie.community_cards)).1 =
        (score_hand (gShowdownTie.computer_hand ++ gShowdownTie.community_cards)).1 →
      (score_hand (gShowdownTie.player_hand ++
          gShowdownTie.community_cards)).2.2.map Card.point_value =
        (score_hand (gShowdownTie.computer_hand ++
          gShowdownTie.community_cards)).2.2.map Card.point_value →
      (determine_winner gShowdownTie).2 = some "tie")) :=
  ⟨rfl, claim_C4_amended gShowdownTie rfl⟩

/-- C9: whenever `determine_winner` is called at showdown with the two
scores exactly equal, its return value is "tie" but the stored winner field
is set to "computer" and the stored winner hand is the computer's category;
the winner field is never a tie value. -/
theorem claim_C9 (g : GameState) (h : g.game_phase = GamePhase.SHOWDOWN)
    (heq : (score_hand (g.player_hand ++ g.community_cards)).2.1 =
           (score_hand (g.computer_hand ++ g.community_cards)).2.1) :
    (determine_winner g).2 = some "tie" ∧
    (determine_winner g).1.winner = some "computer" ∧
    (determine_winner g).1.winner_hand =
      some (score_hand (g.computer_hand ++ g.community_cards)).1 := by
  rw [determine_winner_tie_eq h heq]
  exact ⟨rfl, rfl, rfl⟩

/-- C9 witness: a concrete equal-score showdown returns "tie" while storing
"computer" as the winner. -/
theorem claim_C9_witness :
    gShowdownTie.game_phase = GamePhase.SHOWDOWN ∧
    (score_hand (gShowdownTie.player_hand ++ gShowdownTie.community_cards)).2.1 =
      (score_hand (gShowdownTie.computer_hand ++ gShowdownTie.community_cards)).2.1 ∧
    ((determine_winner gShowdownTie).2 = some "tie" ∧
     (determine_winner gShowdownTie).1.winner = some "computer" ∧
     (determine_winner gShowdownTie).1.winner_hand =
       some (score_hand (gShowdownTie.computer_hand ++
         gShowdownTie.community_cards)).1) :=
  ⟨rfl, by decide, claim_C9 gShowdownTie rfl (by decide)⟩

/-! ## Betting -/

/-- C10: `place_bet` rejects a negative amount, and an amount exceeding the
betting side's chips, returning false with the state unchanged; on success
it returns true, moves the amount from that side's chips into its bet and
the pot, and refreshes the current bet. -/
theorem claim_C10 (g : GameState) (amount : Int) (isP : Bool) :
    (amount < 0 → place_bet g amount isP = (g, false)) ∧
    (0 ≤ amount → isP = true → g.player_chips < amount →
      place_bet g amount isP = (g, false)) ∧
    (0 ≤ amount → isP = false → g.computer_chips < amount →
      place_bet g amount isP = (g, false)) ∧
    (0 ≤ amount → isP = true → amount ≤ g.player_chips →
      place_bet g amount isP =
        ({ g with player_chips := g.player_chips - amount,
                  player_bet := g.player_bet + amount,
                  pot := g.pot + amount,
                  current_bet := max (g.player_bet + amount) g.computer_bet },
         true)) ∧
    (0 ≤ amount → isP = false → amount ≤ g.computer_chips →
      place_bet g amount isP =
        ({ g with computer_chips := g.computer_chips - amount,
                  computer_bet := g.computer_bet + amount,
                  pot := g.pot + amount,
                  current_bet := max g.player_bet (g.computer_bet + amount) },
         true)) := by
  refine ⟨?_, ?_, ?_, ?_, ?_⟩
  · intro hneg
    simp [place_bet, hneg]
  · intro h0 hp hlt
    subst hp
    have hn : ¬ amount < 0 := by omega
    simp [place_bet, hn, hlt]
  · intro h0 hp hlt
    subst hp
    have hn : ¬ amount < 0 := by omega
    simp [place_bet, hn, hlt]
  · intro h0 hp hle
    subst hp
    have hn : ¬ amount < 0 := by omega
    have hn2 : ¬ g.player_chips < amount := by omega
    simp [place_bet, hn, hn2]
  · intro h0 hp hle
    subst hp
    have hn : ¬ amount < 0 := by omega
    have hn2 : ¬ g.computer_chips < amount := by omega
    simp [place_bet, hn, hn2]

/-- C10 witness: at a concrete state, a negative bet and an oversized bet
are rejected without changing the state, and a valid bet moves the chips. -/
theorem claim_C10_witness :
    place_bet gShowdownTie (-5) true = (gShowdownTie, false) ∧
    place_bet gShowdownTie 2000 true = (gShowdownTie, false) ∧
    place_bet gShowdownTie 100 true =
      ({ gShowdownTie with
          player_chips := gShowdownTie.player_chips - 100,
          player_bet := gShowdownTie.player_bet + 100,
          pot := gShowdownTie.pot + 100,
          current_bet := max (gShowdownTie.player_bet + 100)
            gShowdownTie.computer_bet }, true) :=
  ⟨(claim_C10 gShowdownTie (-5) true).1 (by decide),
   (claim_C10 gShowdownTie 2000 true).2.1 (by decide) rfl (by decide),
   (claim_C10 gShowdownTie 100 true).2.2.2.1 (by decide) rfl (by decide)⟩

/-! ## Undersized and duplicated inputs -/

/-- C5 counterexample to the claim as stated: a three-card input is scored
without any InsufficientCards failure — evaluation produces a High Card
result with only the three cards as scoring cards and a definite score. -/
theorem claim_C5_counterexample :
    score_hand threeCardInput =
      (HandType.HIGH_CARD, 7900,
       [⟨.ACE, .SPADES⟩, ⟨.KING, .HEARTS⟩, ⟨.QUEEN, .DIAMONDS⟩]) := by
  decide

/-- C5 (amended): evaluation performs no size validation; an input of fewer
than five cards still produces a result, whose scoring-card list then has
fewer than five cards (all drawn from the input). -/
theorem claim_C5_amended (cards : List Card) (h : cards.length < 5) :
    (score_hand cards).2.2.length < 5 ∧
      ∀ c ∈ (score_hand cards).2.2, c ∈ cards :=
  ⟨selectHand_small h, selectHand_subset cards⟩

/-- C5 amended witness: the three-card input yields three scoring cards. -/
theorem claim_C5_amended_witness :
    threeCardInput.length < 5 ∧
    ((score_hand threeCardInput).2.2.length < 5 ∧
      ∀ c ∈ (score_hand threeCardInput).2.2, c ∈ threeCardInput) :=
  ⟨by decide, claim_C5_amended threeCardInput (by decide)⟩

/-- C6 counterexample to the claim as stated: an input containing the ace of
spades twice is scored without any DuplicateCard failure — the two copies
are treated as a pair of aces and a definite score is produced. -/
theorem claim_C6_counterexample :
    score_hand dupFiveInput =
      (HandType.PAIR, 3075531,
       [⟨.ACE, .SPADES⟩, ⟨.ACE, .SPADES⟩, ⟨.KING, .HEARTS⟩,
        ⟨.QUEEN, .DIAMONDS⟩, ⟨.JACK, .CLUBS⟩]) := by
  decide

theorem length_filter_mono {p q : Card → Bool} (l : List Card)
    (h : ∀ a, p a = true → q a = true) :
    (l.filter p).length ≤ (l.filter q).length := by
  induction l with
  | nil => simp
  | cons c cs ih =>
    by_cases hp : p c
    · have hq := h c hp
      simp [List.filter_cons, hp, hq]
      omega
    · by_cases hq : q c <;> simp [List.filter_cons, hp, hq] <;> omega

/-- C6 (amended): evaluation performs no duplicate check; a duplicated card
simply raises its rank's count, so a corpus that is not duplicate-free has
some point value with count at least 2 and is scored from those counts as
usual. -/
theorem claim_C6_amended (cards : List Card) (hdup : ¬ cards.Nodup) :
    ∃ v, 2 ≤ value_count cards v := by
  rw [List.nodup_iff_count_le_one] at hdup
  push_neg at hdup
  rcases hdup with ⟨a, ha⟩
  refine ⟨a.point_value, ?_⟩
  have hcount : cards.count a = (cards.filter (fun c => c == a)).length := by
    rw [List.count]
    exact List.countP_eq_length_filter ..
  have hmono : (cards.filter (fun c => c == a)).length ≤
      (cards.filter (fun c => c.point_value == a.point_value)).length := by
    refine length_filter_mono cards ?_
    intro b hb
    have : b = a := by simpa using hb
    simp [this]
  unfold value_count
  omega

/-- C6 amended witness: the duplicated-ace input has value 14 with count 2. -/
theorem claim_C6_amended_witness :
    ¬ dupFiveInput.Nodup ∧ ∃ v, 2 ≤ value_count dupFiveInput v :=
  ⟨by decide, claim_C6_amended dupFiveInput (by decide)⟩
